import Mathlib

/-!
# Verification of the SBOM generation core

A shallow embedding of the SBOM subsystem (dependency-manifest parsers,
parser registry, aggregator, CycloneDX and SPDX document builders) of the
Build-Flow-Labs/blueprint repository, together with proofs of the
specification's testable properties.

Strings are processed as `List Char`; the Go standard-library helpers used
by the source (`strings.TrimSpace`, `strings.HasPrefix`, `bufio.Scanner`
line splitting, `encoding/json` decoding, `crypto/sha256`) are embedded as
executable Lean functions.  Time and UUID randomness are passed explicitly:
`Generate` takes a `DateTime` (the value `time.Now().UTC()` would produce)
and a byte stream for `uuid.New()`.  JSON/XML serialization of the final
document model is not modelled; the generated `Content` is represented by
the document structure that the source marshals.
-/

set_option maxRecDepth 100000

namespace Blueprint

/-- Decidable equality of `Except` results. -/
instance {ε α : Type} [DecidableEq ε] [DecidableEq α] : DecidableEq (Except ε α) :=
  fun a b =>
    match a, b with
    | .ok x, .ok y =>
      if h : x = y then isTrue (by rw [h]) else isFalse (fun hh => by cases hh; exact h rfl)
    | .error x, .error y =>
      if h : x = y then isTrue (by rw [h]) else isFalse (fun hh => by cases hh; exact h rfl)
    | .ok _, .error _ => isFalse (fun hh => by cases hh)
    | .error _, .ok _ => isFalse (fun hh => by cases hh)

/-! ## Character classes (ASCII, spelled via code points) -/

/-- Go `unicode.IsSpace` on the characters relevant to manifest text
    (Latin-1 range): space, tab, LF, VT, FF, CR, NEL, NBSP. -/
def isUniSpace (c : Char) : Bool :=
  c.toNat = 32 || c.toNat = 9 || c.toNat = 10 || c.toNat = 11 ||
  c.toNat = 12 || c.toNat = 13 || c.toNat = 133 || c.toNat = 160

/-- RE2 `\s`, i.e. `[\t\n\f\r ]`. -/
def isRegexSpace (c : Char) : Bool :=
  c.toNat = 9 || c.toNat = 10 || c.toNat = 12 || c.toNat = 13 || c.toNat = 32

/-- RE2 `[\d.]`: an ASCII digit or a dot. -/
def isDigitDot (c : Char) : Bool :=
  (48 ≤ c.toNat && c.toNat ≤ 57) || c.toNat = 46

/-- RE2 `[\w.]`: `[0-9A-Za-z_]` or a dot. -/
def isWordDot (c : Char) : Bool :=
  (48 ≤ c.toNat && c.toNat ≤ 57) || (65 ≤ c.toNat && c.toNat ≤ 90) ||
  (97 ≤ c.toNat && c.toNat ≤ 122) || c.toNat = 95 || c.toNat = 46

/-- The class `[a-zA-Z0-9_-]` of the requirements.txt package regex. -/
def isReqNameChar (c : Char) : Bool :=
  (48 ≤ c.toNat && c.toNat ≤ 57) || (65 ≤ c.toNat && c.toNat ≤ 90) ||
  (97 ≤ c.toNat && c.toNat ≤ 122) || c.toNat = 95 || c.toNat = 45

/-- An ASCII digit. -/
def isDigitChar (c : Char) : Bool := 48 ≤ c.toNat && c.toNat ≤ 57

/-- An ASCII hex digit (either case), as accepted by `uuid.Parse`. -/
def isHexChar (c : Char) : Bool :=
  (48 ≤ c.toNat && c.toNat ≤ 57) || (97 ≤ c.toNat && c.toNat ≤ 102) ||
  (65 ≤ c.toNat && c.toNat ≤ 70)

/-- JSON insignificant whitespace: space, tab, LF, CR. -/
def isJsonWs (c : Char) : Bool :=
  c.toNat = 32 || c.toNat = 9 || c.toNat = 10 || c.toNat = 13

/-- ASCII lower-casing of one character (`strings.ToLower` restricted to
    the ASCII names produced by the requirements.txt regex). -/
def asciiLowerChar (c : Char) : Char :=
  if 65 ≤ c.toNat ∧ c.toNat ≤ 90 then Char.ofNat (c.toNat + 32) else c

/-! ## List-of-characters utilities mirroring Go's `strings` package -/

/-- `strings.HasPrefix s pat` on char lists (pattern first). -/
def hasPrefixL : List Char → List Char → Bool
  | [], _ => true
  | _ :: _, [] => false
  | p :: ps, c :: cs => p = c && hasPrefixL ps cs

/-- `strings.Contains s pat` on char lists (pattern first). -/
def containsSubL (pat : List Char) : List Char → Bool
  | [] => hasPrefixL pat []
  | c :: rest => hasPrefixL pat (c :: rest) || containsSubL pat rest

/-- `strings.HasSuffix s pat` on char lists (pattern first). -/
def hasSuffixL (pat l : List Char) : Bool :=
  hasPrefixL pat.reverse l.reverse

/-- `strings.TrimPrefix s pat` on char lists (pattern first). -/
def trimPrefixL (pat l : List Char) : List Char :=
  if hasPrefixL pat l then l.drop pat.length else l

/-- `strings.TrimSpace` on char lists. -/
def trimL (l : List Char) : List Char :=
  ((l.dropWhile isUniSpace).reverse.dropWhile isUniSpace).reverse

/-- Worker for `replaceAllL`; `fuel` bounds the number of scan steps (each
    step consumes at least one character when the pattern is non-empty). -/
def replaceAllAux (pat repl : List Char) : Nat → List Char → List Char
  | _, [] => []
  | 0, l => l
  | fuel + 1, c :: rest =>
    if !pat.isEmpty && hasPrefixL pat (c :: rest) then
      repl ++ replaceAllAux pat repl fuel ((c :: rest).drop pat.length)
    else
      c :: replaceAllAux pat repl fuel rest

/-- `strings.ReplaceAll s pat repl` on char lists; the source only calls it
    with a fixed non-empty pattern. -/
def replaceAllL (pat repl l : List Char) : List Char :=
  replaceAllAux pat repl l.length l

/-- `strings.SplitN s "/" 2` when it yields two parts: the text before the
    first slash and the remainder after it. -/
def splitFirstSlash (l : List Char) : Option (List Char × List Char) :=
  let pre := l.takeWhile (fun c => !(c = '/'))
  match l.drop pre.length with
  | '/' :: r => some (pre, r)
  | _ => none

/-! ## Line splitting as done by `bufio.Scanner` with `ScanLines` -/

/-- Remove one trailing carriage return (the `dropCR` of `bufio.ScanLines`). -/
def dropCR (l : List Char) : List Char :=
  if l.getLast? = some '\r' then l.dropLast else l

/-- Worker for `splitLinesGo`: `acc` is the current (reversed) line. -/
def splitLinesAux : List Char → List Char → List (List Char)
  | [], acc => [dropCR acc.reverse]
  | c :: rest, acc =>
    if c = '\n' then
      dropCR acc.reverse :: (if rest.isEmpty then [] else splitLinesAux rest [])
    else
      splitLinesAux rest (c :: acc)

/-- The sequence of lines a `bufio.Scanner` yields over the given text:
    split at `\n`, strip one trailing `\r` per line, do not yield a final
    empty line when the text ends with `\n`, yield nothing on empty text. -/
def splitLinesGo (l : List Char) : List (List Char) :=
  if l.isEmpty then [] else splitLinesAux l []

example : splitLinesGo "a\nb".data = ["a".data, "b".data] := by decide
example : splitLinesGo "a\r\nb\n".data = ["a".data, "b".data] := by decide
example : splitLinesGo "".data = [] := by decide
example : splitLinesGo "\n".data = ["".data] := by decide

example : trimL "  a b\t".data = "a b".data := by decide
example : replaceAllL ".x".data ".0".data "1.x.x".data = "1.0.0".data := by decide
example : hasSuffixL "/go.mod".data "a/b/go.mod".data = true := by decide

/-! ## The canonical dependency model -/

/-- `sbom.Dependency`: one software dependency record. -/
structure Dependency where
  Name : String
  Version : String
  License : String := ""
  PURL : String := ""
  «Type» : String
  Direct : Bool
deriving DecidableEq

/-! ## GoModParser -/

/-- The test `moduleRegex.MatchString trimmed` for
    `moduleRegex = ^module\s+(\S+)` (anchored, so the line must start with
    `module`, then at least one space, then at least one non-space). -/
def matchesModuleRegex (l : List Char) : Bool :=
  hasPrefixL "module".data l &&
    (let rest := l.drop 6
     !(rest.takeWhile isRegexSpace).isEmpty && !(rest.dropWhile isRegexSpace).isEmpty)

/-- Whether `//\s*indirect` matches starting at the head of `l`. -/
def indirectAt (l : List Char) : Bool :=
  match l with
  | '/' :: '/' :: rest => hasPrefixL "indirect".data (rest.dropWhile isRegexSpace)
  | _ => false

/-- The test `indirectRegex.MatchString line` for
    `indirectRegex = //\s*indirect` (unanchored search). -/
def hasIndirectComment : List Char → Bool
  | [] => false
  | c :: rest => indirectAt (c :: rest) || hasIndirectComment rest

/-- `requireRegex.FindStringSubmatch` for
    `requireRegex = ^\s*(\S+)\s+(v[\d.]+(?:-[\w.]+)?)`: the leftmost-first
    match at the start of the line, returning the two capture groups
    (module path, version) when the pattern matches. -/
def requireRegexMatch (l : List Char) : Option (List Char × List Char) :=
  let l1 := l.dropWhile isRegexSpace
  let name := l1.takeWhile (fun c => !isRegexSpace c)
  if name.isEmpty then none else
  let r1 := l1.drop name.length
  if (r1.takeWhile isRegexSpace).isEmpty then none else
  match r1.dropWhile isRegexSpace with
  | 'v' :: rest =>
    let digits := rest.takeWhile isDigitDot
    if digits.isEmpty then none else
    let ver :=
      match rest.drop digits.length with
      | '-' :: r2 =>
        let w := r2.takeWhile isWordDot
        if w.isEmpty then 'v' :: digits else 'v' :: digits ++ '-' :: w
      | _ => 'v' :: digits
    some (name, ver)
  | _ => none

/-- `buildGoPURL`: Package URL for a Go module. -/
def buildGoPURL (name version : String) : String :=
  "pkg:golang/" ++ ⟨replaceAllL "/".data "%2F".data name.data⟩ ++ "@" ++ version

/-- One iteration of the `GoModParser.Parse` scan loop.  State is
    (`inRequireBlock`, dependencies collected so far); `line` is the raw
    scanner line. -/
def goModStep (st : Bool × List Dependency) (line : List Char) : Bool × List Dependency :=
  let inRequireBlock := st.1
  let deps := st.2
  let trimmed := trimL line
  if trimmed.isEmpty || hasPrefixL "//".data trimmed then (inRequireBlock, deps)
  else if matchesModuleRegex trimmed then (inRequireBlock, deps)
  else if hasPrefixL "require (".data trimmed || trimmed = "require(".data then (true, deps)
  else if trimmed = ")".data && inRequireBlock then (false, deps)
  else
    let trimmed2 :=
      if hasPrefixL "require ".data trimmed && !containsSubL "(".data trimmed then
        trimmed.drop "require ".length
      else trimmed
    if inRequireBlock || hasPrefixL "require ".data line then
      match requireRegexMatch trimmed2 with
      | some nv =>
        let nameS : String := ⟨nv.1⟩
        let verS : String := ⟨nv.2⟩
        let dep : Dependency :=
          { Name := nameS, Version := verS, «Type» := "go",
            Direct := !hasIndirectComment line, PURL := buildGoPURL nameS verS }
        (inRequireBlock, deps ++ [dep])
      | none => (inRequireBlock, deps)
    else (inRequireBlock, deps)

/-- `GoModParser.Parse`: scan the go.mod text line by line.  The scan over
    an in-memory string never fails, so the result is always `ok`. -/
def goModParse (content : String) : Except String (List Dependency) :=
  .ok ((splitLinesGo content.data).foldl goModStep (false, [])).2

/-! ## PackageJSONParser: JSON decoding (`encoding/json`) -/

/-- A decoded JSON value.  `num` keeps the numeric lexeme only; the source
    never reads numeric values from package.json. -/
inductive JValue where
  | null
  | bool (b : Bool)
  | num (lexeme : String)
  | str (s : String)
  | arr (elems : List JValue)
  | obj (fields : List (String × JValue))

/-- Hex digit value for `\uXXXX` escapes. -/
def hexVal (c : Char) : Option Nat :=
  if 48 ≤ c.toNat ∧ c.toNat ≤ 57 then some (c.toNat - 48)
  else if 97 ≤ c.toNat ∧ c.toNat ≤ 102 then some (c.toNat - 87)
  else if 65 ≤ c.toNat ∧ c.toNat ≤ 70 then some (c.toNat - 55)
  else none

/-- Parse the body of a JSON string (after the opening quote), returning
    the decoded characters and the input after the closing quote. -/
def parseJString : List Char → Option (List Char × List Char)
  | [] => none
  | '"' :: rest => some ([], rest)
  | '\\' :: 'u' :: a :: b :: c :: d :: rest => do
    let ha ← hexVal a
    let hb ← hexVal b
    let hc ← hexVal c
    let hd ← hexVal d
    let n := ((ha * 16 + hb) * 16 + hc) * 16 + hd
    let ch := if 55296 ≤ n ∧ n ≤ 57343 then Char.ofNat 65533 else Char.ofNat n
    let sr ← parseJString rest
    some (ch :: sr.1, sr.2)
  | '\\' :: e :: rest => do
    let ch ← match e with
      | '"' => some '"'
      | '\\' => some '\\'
      | '/' => some '/'
      | 'b' => some (Char.ofNat 8)
      | 'f' => some (Char.ofNat 12)
      | 'n' => some '\n'
      | 'r' => some '\r'
      | 't' => some '\t'
      | _ => none
    let sr ← parseJString rest
    some (ch :: sr.1, sr.2)
  | c :: rest =>
    if c.toNat < 32 then none
    else do
      let sr ← parseJString rest
      some (c :: sr.1, sr.2)

/-- Parse a JSON number lexeme (sign, integer part without leading zeros,
    optional fraction, optional exponent). -/
def parseJNumber (l : List Char) : Option (List Char × List Char) :=
  let sign : List Char := if hasPrefixL "-".data l then ['-'] else []
  let l1 := l.drop sign.length
  let ip := l1.takeWhile isDigitChar
  if ip.isEmpty then none
  else if 1 < ip.length && ip.headD '0' = '0' then none
  else
    let r1 := l1.drop ip.length
    match r1 with
    | '.' :: r =>
      let ds := r.takeWhile isDigitChar
      if ds.isEmpty then none
      else
        let r2 := r.drop ds.length
        match r2 with
        | 'e' :: r3 => parseJExp (sign ++ ip ++ '.' :: ds ++ ['e']) r3
        | 'E' :: r3 => parseJExp (sign ++ ip ++ '.' :: ds ++ ['E']) r3
        | _ => some (sign ++ ip ++ '.' :: ds, r2)
    | 'e' :: r3 => parseJExp (sign ++ ip ++ ['e']) r3
    | 'E' :: r3 => parseJExp (sign ++ ip ++ ['E']) r3
    | _ => some (sign ++ ip, r1)
where
  /-- Parse the exponent digits after `e`/`E`. -/
  parseJExp (acc : List Char) (r : List Char) : Option (List Char × List Char) :=
    let sgn : List Char :=
      if hasPrefixL "+".data r then ['+'] else if hasPrefixL "-".data r then ['-'] else []
    let r1 := r.drop sgn.length
    let ds := r1.takeWhile isDigitChar
    if ds.isEmpty then none else some (acc ++ sgn ++ ds, r1.drop ds.length)

/-- Intermediate result of the JSON recursive-descent parser: a value, the
    elements of an array, or the members of an object. -/
inductive JPartial where
  | val (v : JValue)
  | elems (es : List JValue)
  | members (fs : List (String × JValue))

/-- The JSON recursive-descent parser.  The mode selects the production
    (0: one value, 1: non-empty array elements up to `]`, 2: non-empty
    object members up to `}`); `fuel` bounds the recursion depth and is
    structurally decreasing.  Leading whitespace is already consumed. -/
def parseJ : Nat → Nat → List Char → Option (JPartial × List Char)
  | 0, _, _ => none
  | fuel + 1, 0, l =>
    match l with
    | 'n' :: rest =>
      if hasPrefixL "ull".data rest then some (.val .null, rest.drop 3) else none
    | 't' :: rest =>
      if hasPrefixL "rue".data rest then some (.val (.bool true), rest.drop 3) else none
    | 'f' :: rest =>
      if hasPrefixL "alse".data rest then some (.val (.bool false), rest.drop 4) else none
    | '"' :: rest =>
      match parseJString rest with
      | some sr => some (.val (.str ⟨sr.1⟩), sr.2)
      | none => none
    | '[' :: rest =>
      match rest.dropWhile isJsonWs with
      | ']' :: r => some (.val (.arr []), r)
      | r0 =>
        match parseJ fuel 1 r0 with
        | some (.elems es, r) => some (.val (.arr es), r)
        | _ => none
    | '{' :: rest =>
      match rest.dropWhile isJsonWs with
      | '}' :: r => some (.val (.obj []), r)
      | r0 =>
        match parseJ fuel 2 r0 with
        | some (.members fs, r) => some (.val (.obj fs), r)
        | _ => none
    | c :: _ =>
      if c = '-' || isDigitChar c then
        match parseJNumber l with
        | some nr => some (.val (.num ⟨nr.1⟩), nr.2)
        | none => none
      else none
    | [] => none
  | fuel + 1, 1, l =>
    match parseJ fuel 0 l with
    | some (.val v, r) =>
      match r.dropWhile isJsonWs with
      | ',' :: r2 =>
        match parseJ fuel 1 (r2.dropWhile isJsonWs) with
        | some (.elems es, r3) => some (.elems (v :: es), r3)
        | _ => none
      | ']' :: r2 => some (.elems [v], r2)
      | _ => none
    | _ => none
  | fuel + 1, _, l =>
    match l with
    | '"' :: rest =>
      match parseJString rest with
      | none => none
      | some kr =>
        match kr.2.dropWhile isJsonWs with
        | ':' :: r2 =>
          match parseJ fuel 0 (r2.dropWhile isJsonWs) with
          | some (.val v, r) =>
            match r.dropWhile isJsonWs with
            | ',' :: r4 =>
              match parseJ fuel 2 (r4.dropWhile isJsonWs) with
              | some (.members fs, r5) => some (.members ((⟨kr.1⟩, v) :: fs), r5)
              | _ => none
            | '}' :: r4 => some (.members [(⟨kr.1⟩, v)], r4)
            | _ => none
          | _ => none
        | _ => none
    | _ => none

/-- Decode one complete JSON document: a single value with only
    insignificant whitespace around it (`json.Unmarshal` rejects trailing
    data). -/
def jsonUnmarshalValue (s : String) : Option JValue :=
  let l := s.data.dropWhile isJsonWs
  match parseJ (l.length + 1) 0 l with
  | some (.val v, r) => if (r.dropWhile isJsonWs).isEmpty then some v else none
  | _ => none

/-- The `packageJSON` struct the npm parser decodes into.  The two
    dependency maps are represented as association lists in document
    order (Go's map iteration order is not observable deterministically;
    see the determinism theorems). -/
structure packageJSON where
  name : String := ""
  version : String := ""
  dependencies : List (String × String) := []
  devDependencies : List (String × String) := []
  license : String := ""
deriving DecidableEq

/-- ASCII lower-casing of a whole string (JSON keys are matched
    case-insensitively by `encoding/json`). -/
def asciiLower (s : String) : String := ⟨s.data.map asciiLowerChar⟩

/-- Store one key/value pair into a string map, overwriting an existing
    key (Go map assignment). -/
def insertAssoc (m : List (String × String)) (k v : String) : List (String × String) :=
  if m.any (fun p => p.1 = k) then m.map (fun p => if p.1 = k then (k, v) else p)
  else m ++ [(k, v)]

/-- Decode a JSON object into a `map[string]string`, merging into `init`
    (Go reuses an existing map).  A non-string, non-null member value is an
    unmarshal type error. -/
def decodeStringMap (init : List (String × String)) :
    List (String × JValue) → Except String (List (String × String))
  | [] => .ok init
  | (k, .str s) :: rest => decodeStringMap (insertAssoc init k s) rest
  | (k, .null) :: rest => decodeStringMap (insertAssoc init k "") rest
  | (_, _) :: _ => .error "json: cannot unmarshal value into map[string]string"

/-- Decode one `packageJSON` field (JSON keys matched case-insensitively,
    unknown keys ignored, `null` leaves the field unchanged). -/
def decodePackageJSONField (pkg : packageJSON) (k : String) (v : JValue) :
    Except String packageJSON :=
  if asciiLower k = "name" then
    match v with
    | .str s => .ok { pkg with name := s }
    | .null => .ok pkg
    | _ => .error "json: cannot unmarshal value into field name of type string"
  else if asciiLower k = "version" then
    match v with
    | .str s => .ok { pkg with version := s }
    | .null => .ok pkg
    | _ => .error "json: cannot unmarshal value into field version of type string"
  else if asciiLower k = "license" then
    match v with
    | .str s => .ok { pkg with license := s }
    | .null => .ok pkg
    | _ => .error "json: cannot unmarshal value into field license of type string"
  else if asciiLower k = "dependencies" then
    match v with
    | .obj fs =>
      match decodeStringMap pkg.dependencies fs with
      | .ok m => .ok { pkg with dependencies := m }
      | .error e => .error e
    | .null => .ok pkg
    | _ => .error "json: cannot unmarshal value into field dependencies"
  else if asciiLower k = "devdependencies" then
    match v with
    | .obj fs =>
      match decodeStringMap pkg.devDependencies fs with
      | .ok m => .ok { pkg with devDependencies := m }
      | .error e => .error e
    | .null => .ok pkg
    | _ => .error "json: cannot unmarshal value into field devDependencies"
  else .ok pkg

/-- `json.Unmarshal` of a document into the `packageJSON` struct: the top
    value must be an object (or `null`, which leaves the zero struct). -/
def decodePackageJSON : JValue → Except String packageJSON
  | .obj fields => fields.foldlM (fun pkg kv => decodePackageJSONField pkg kv.1 kv.2) {}
  | .null => .ok {}
  | _ => .error "json: cannot unmarshal value into Go value of type packageJSON"

/-- `cleanNpmVersion`: trim space, strip the range-operator prefixes in
    the fixed order `^ ~ >= <= > < =`, then replace every `.x` with `.0`. -/
def cleanNpmVersion (version : String) : String :=
  let v := trimL version.data
  let v := ["^", "~", ">=", "<=", ">", "<", "="].foldl (fun v p => trimPrefixL p.data v) v
  let v := if containsSubL ".x".data v then replaceAllL ".x".data ".0".data v else v
  ⟨v⟩

/-- `buildNpmPURL`: Package URL for an npm package, keeping the scope
    separator for scoped (`@scope/name`) packages. -/
def buildNpmPURL (name version : String) : String :=
  if hasPrefixL "@".data name.data then
    match splitFirstSlash name.data with
    | some pr => "pkg:npm/" ++ ⟨pr.1⟩ ++ "/" ++ ⟨pr.2⟩ ++ "@" ++ version
    | none => "pkg:npm/" ++ name ++ "@" ++ version
  else "pkg:npm/" ++ name ++ "@" ++ version

/-- One npm dependency record. -/
def npmDependency (nv : String × String) : Dependency :=
  let cleanVersion := cleanNpmVersion nv.2
  { Name := nv.1, Version := cleanVersion, «Type» := "npm", Direct := true,
    PURL := buildNpmPURL nv.1 cleanVersion }

/-- The two `range` loops of `PackageJSONParser.Parse` for one iteration
    order of each ranged map: the source visits the entries of
    `pkg.Dependencies`, then those of `pkg.DevDependencies`, each in an
    arbitrary (Go-randomized) order; `dep` and `dev` are the enumeration
    orders one particular call happens to use. -/
def npmRangeDeps (dep dev : List (String × String)) : List Dependency :=
  dep.map npmDependency ++ dev.map npmDependency

/-- `PackageJSONParser.Parse`: decode the JSON document and emit one
    dependency per entry of `dependencies` then `devDependencies`.  The
    source ranges over two Go maps whose iteration order is randomized per
    call; this embedding fixes their document order as the representative
    enumeration, and `npmRangeDeps` applied to permuted entry lists gives
    the outputs of the other iteration orders. -/
def packageJSONParse (content : String) : Except String (List Dependency) :=
  match jsonUnmarshalValue content with
  | none => .error "invalid JSON"
  | some v =>
    match decodePackageJSON v with
    | .error e => .error e
    | .ok pkg => .ok (npmRangeDeps pkg.dependencies pkg.devDependencies)

/-! ## RequirementsTxtParser -/

/-- `pkgRegex.FindStringSubmatch` for
    `pkgRegex = ^([a-zA-Z0-9_-]+(?:\[[^\]]+\])?)\s*([=<>!~]+)?\s*([\d.]+(?:\.\*)?)?`:
    returns (group 1: name with optional extras, group 3: version, possibly
    empty) when the anchored pattern matches, i.e. exactly when the line
    starts with at least one name character. -/
def pkgRegexMatch (l : List Char) : Option (List Char × List Char) :=
  let base := l.takeWhile isReqNameChar
  if base.isEmpty then none else
  let r1 := l.drop base.length
  let nr : List Char × List Char :=
    match r1 with
    | '[' :: r =>
      let inner := r.takeWhile (fun c => !(c = ']'))
      if inner.isEmpty then (base, r1)
      else
        match r.drop inner.length with
        | ']' :: rr => (base ++ '[' :: (inner ++ [']']), rr)
        | _ => (base, r1)
    | _ => (base, r1)
  let r3 := nr.2.dropWhile isRegexSpace
  let op := r3.takeWhile (fun c => c = '=' || c = '<' || c = '>' || c = '!' || c = '~')
  let r4 := (r3.drop op.length).dropWhile isRegexSpace
  let ver := r4.takeWhile isDigitDot
  some (nr.1, ver)

/-- `buildPyPIPURL`: PEP 503 normalization (ASCII lower-case, `_` → `-`)
    then `pkg:pypi/<name>@<version>`, version omitted when empty. -/
def buildPyPIPURL (name version : String) : String :=
  let name : String := ⟨replaceAllL "_".data "-".data (name.data.map asciiLowerChar)⟩
  if version ≠ "" then "pkg:pypi/" ++ name ++ "@" ++ version
  else "pkg:pypi/" ++ name

/-- One iteration of the `RequirementsTxtParser.Parse` scan loop. -/
def requirementsStep (deps : List Dependency) (line : List Char) : List Dependency :=
  let trimmed := trimL line
  if trimmed.isEmpty || hasPrefixL "#".data trimmed || hasPrefixL "-".data trimmed then deps
  else
    let trimmed :=
      if containsSubL ";".data trimmed then trimL (trimmed.takeWhile (fun c => !(c = ';')))
      else trimmed
    match pkgRegexMatch trimmed with
    | none => deps
    | some nv =>
      let name := nv.1.takeWhile (fun c => !(c = '['))
      let version : String := ⟨nv.2⟩
      let dep : Dependency :=
        { Name := ⟨name⟩, Version := version, «Type» := "python", Direct := true,
          PURL := buildPyPIPURL ⟨name⟩ version }
      deps ++ [dep]

/-- `RequirementsTxtParser.Parse`: scan the requirements text line by
    line; over an in-memory string the scan never fails. -/
def requirementsTxtParse (content : String) : Except String (List Dependency) :=
  .ok ((splitLinesGo content.data).foldl requirementsStep [])

/-! ## Parser registry -/

/-- The closed set of ecosystem parsers, in registry order. -/
inductive DependencyParser where
  | GoModParser
  | PackageJSONParser
  | RequirementsTxtParser
deriving DecidableEq

/-- `FilePatterns` of each parser. -/
def filePatterns : DependencyParser → List String
  | .GoModParser => ["go.mod"]
  | .PackageJSONParser => ["package.json"]
  | .RequirementsTxtParser => ["requirements.txt", "requirements-dev.txt", "requirements-test.txt"]

/-- `EcosystemType` of each parser. -/
def ecosystemType : DependencyParser → String
  | .GoModParser => "go"
  | .PackageJSONParser => "npm"
  | .RequirementsTxtParser => "python"

/-- `Parse` of each parser. -/
def parserParse : DependencyParser → String → Except String (List Dependency)
  | .GoModParser => goModParse
  | .PackageJSONParser => packageJSONParse
  | .RequirementsTxtParser => requirementsTxtParse

/-- `matchPattern`: exact match, or suffix match after a `/`. -/
def matchPattern (filename pattern : String) : Bool :=
  filename = pattern || hasSuffixL ("/" ++ pattern).data filename.data

/-- `GetParserForFile`: first parser, in the fixed order Go, npm, Python,
    with a file pattern matching the filename. -/
def GetParserForFile (filename : String) : Option DependencyParser :=
  [DependencyParser.GoModParser, DependencyParser.PackageJSONParser,
   DependencyParser.RequirementsTxtParser].find?
    (fun p => (filePatterns p).any (fun pat => matchPattern filename pat))

/-! ## Formats and statistics -/

/-- `sbom.FormatCycloneDXJSON`. -/
def FormatCycloneDXJSON : String := "cyclonedx-json"

/-- `sbom.FormatCycloneDXXML`. -/
def FormatCycloneDXXML : String := "cyclonedx-xml"

/-- `sbom.FormatSPDXJSON`. -/
def FormatSPDXJSON : String := "spdx-json"

/-- `ParseFormat`: convert a string to a `Format`. -/
def ParseFormat (s : String) : Except String String :=
  if s = "cyclonedx-json" ∨ s = "cyclonedx" then .ok FormatCycloneDXJSON
  else if s = "cyclonedx-xml" then .ok FormatCycloneDXXML
  else if s = "spdx-json" ∨ s = "spdx" then .ok FormatSPDXJSON
  else .error ("unknown SBOM format: " ++ s)

/-- `sbom.SBOMStats`. -/
structure SBOMStats where
  TotalDependencies : Nat := 0
  DirectDependencies : Nat := 0
  WithLicense : Nat := 0
  WithoutLicense : Nat := 0
  Ecosystems : Nat := 0
deriving DecidableEq

/-- `calculateStats`: one pass over the dependencies, counting direct and
    licensed entries and the distinct ecosystem tags (the Go `map[string]bool`
    set is represented by a duplicate-free list). -/
def calculateStats (deps : List Dependency) : SBOMStats :=
  let res := deps.foldl
    (fun (acc : SBOMStats × List String) dep =>
      let st := acc.1
      let st := if dep.Direct then
          { st with DirectDependencies := st.DirectDependencies + 1 } else st
      let st := if dep.License ≠ "" then { st with WithLicense := st.WithLicense + 1 }
        else { st with WithoutLicense := st.WithoutLicense + 1 }
      (st, if dep.«Type» ∈ acc.2 then acc.2 else dep.«Type» :: acc.2))
    ({ TotalDependencies := deps.length }, [])
  { res.1 with Ecosystems := res.2.length }

/-! ## UTF-8, hex, SHA-256 (`crypto/sha256`, `encoding/hex`) -/

/-- UTF-8 encoding of one scalar value (Go strings are UTF-8 bytes). -/
def utf8Char (c : Char) : List Nat :=
  let n := c.toNat
  if n < 128 then [n]
  else if n < 2048 then [192 ||| (n >>> 6), 128 ||| (n &&& 63)]
  else if n < 65536 then
    [224 ||| (n >>> 12), 128 ||| ((n >>> 6) &&& 63), 128 ||| (n &&& 63)]
  else
    [240 ||| (n >>> 18), 128 ||| ((n >>> 12) &&& 63),
     128 ||| ((n >>> 6) &&& 63), 128 ||| (n &&& 63)]

/-- The UTF-8 bytes of a character sequence. -/
def utf8Encode (l : List Char) : List Nat := (l.map utf8Char).flatten

/-- Lower-case hex digit of a value below 16. -/
def hexCharLower (n : Nat) : Char :=
  if n < 10 then Char.ofNat (48 + n) else Char.ofNat (87 + n)

/-- The two lower-case hex digits of one byte. -/
def byteHex (b : Nat) : List Char := [hexCharLower (b / 16 % 16), hexCharLower (b % 16)]

/-- `hex.EncodeToString`: lower-case hex of a byte sequence. -/
def hexEncode (bs : List Nat) : List Char := (bs.map byteHex).flatten

/-- Truncation to 32 bits. -/
def m32 (x : Nat) : Nat := x % 4294967296

/-- 32-bit rotate right. -/
def rotr32 (n x : Nat) : Nat := m32 ((x >>> n) ||| (x <<< (32 - n)))

/-- SHA-256 round constants (FIPS 180-4, the hex words `428a2f98`,
    `71374491`, ... written in decimal). -/
def sha256K : List Nat :=
  [1116352408, 1899447441, 3049323471, 3921009573, 961987163, 1508970993,
   2453635748, 2870763221, 3624381080, 310598401, 607225278, 1426881987,
   1925078388, 2162078206, 2614888103, 3248222580, 3835390401, 4022224774,
   264347078, 604807628, 770255983, 1249150122, 1555081692, 1996064986,
   2554220882, 2821834349, 2952996808, 3210313671, 3336571891, 3584528711,
   113926993, 338241895, 666307205, 773529912, 1294757372, 1396182291,
   1695183700, 1986661051, 2177026350, 2456956037, 2730485921, 2820302411,
   3259730800, 3345764771, 3516065817, 3600352804, 4094571909, 275423344,
   430227734, 506948616, 659060556, 883997877, 958139571, 1322822218,
   1537002063, 1747873779, 1955562222, 2024104815, 2227730452, 2361852424,
   2428436474, 2756734187, 3204031479, 3329325298]

/-- SHA-256 initial hash values (`6a09e667` ... in decimal). -/
def sha256Init : List Nat :=
  [1779033703, 3144134277, 1013904242, 2773480762, 1359893119, 2600822924,
   528734635, 1541459225]

/-- FIPS 180-4 message padding: `0x80`, zeros, 64-bit big-endian bit length. -/
def sha256Pad (msg : List Nat) : List Nat :=
  let len := msg.length
  let bitLen := len * 8
  let k := (119 - len % 64) % 64
  msg ++ 128 :: List.replicate k 0 ++
    (List.range 8).map (fun i => bitLen >>> (56 - 8 * i) % 256)

/-- Worker for `chunks64`; each step consumes 64 bytes, so fuel equal to
    the length always suffices. -/
def chunks64Aux : Nat → List Nat → List (List Nat)
  | _, [] => []
  | 0, _ :: _ => []
  | fuel + 1, l => l.take 64 :: chunks64Aux fuel (l.drop 64)

/-- Split into 64-byte blocks. -/
def chunks64 (l : List Nat) : List (List Nat) := chunks64Aux l.length l

/-- The 16 big-endian 32-bit words of one block. -/
def toWords (block : List Nat) : List Nat :=
  (List.range 16).map (fun i =>
    (block.getD (4 * i) 0 <<< 24) ||| (block.getD (4 * i + 1) 0 <<< 16) |||
    (block.getD (4 * i + 2) 0 <<< 8) ||| block.getD (4 * i + 3) 0)

/-- Message-schedule extension from 16 to 64 words. -/
def sha256Extend (w0 : List Nat) : List Nat :=
  (List.range 48).foldl
    (fun w _ =>
      let n := w.length
      let s0 :=
        rotr32 7 (w.getD (n - 15) 0) ^^^ rotr32 18 (w.getD (n - 15) 0) ^^^ (w.getD (n - 15) 0 >>> 3)
      let s1 :=
        rotr32 17 (w.getD (n - 2) 0) ^^^ rotr32 19 (w.getD (n - 2) 0) ^^^ (w.getD (n - 2) 0 >>> 10)
      w ++ [m32 (w.getD (n - 16) 0 + s0 + w.getD (n - 7) 0 + s1)])
    w0

/-- One SHA-256 block compression. -/
def sha256Compress (hv : List Nat) (w : List Nat) : List Nat :=
  let fin := (List.range 64).foldl
    (fun (st : List Nat) t =>
      match st with
      | [a, b, c, d, e, f, g, hh] =>
        let s1 := rotr32 6 e ^^^ rotr32 11 e ^^^ rotr32 25 e
        let ch := (e &&& f) ^^^ ((e ^^^ 4294967295) &&& g)
        let t1 := m32 (hh + s1 + ch + sha256K.getD t 0 + w.getD t 0)
        let s0 := rotr32 2 a ^^^ rotr32 13 a ^^^ rotr32 22 a
        let mj := (a &&& b) ^^^ (a &&& c) ^^^ (b &&& c)
        let t2 := m32 (s0 + mj)
        [m32 (t1 + t2), a, b, c, m32 (d + t1), e, f, g]
      | other => other)
    hv
  (List.range 8).map (fun i => m32 (hv.getD i 0 + fin.getD i 0))

/-- SHA-256 digest (32 bytes) of a byte sequence. -/
def sha256Bytes (msg : List Nat) : List Nat :=
  let hfin := (chunks64 (sha256Pad msg)).foldl
    (fun hv b => sha256Compress hv (sha256Extend (toWords b))) sha256Init
  (hfin.map (fun wv => [wv >>> 24 % 256, wv >>> 16 % 256, wv >>> 8 % 256, wv % 256])).flatten

/-- Lower-case hex SHA-256 digest of the UTF-8 bytes of a string. -/
def sha256Hex (s : String) : String := ⟨hexEncode (sha256Bytes (utf8Encode s.data))⟩

/-- FIPS 180-4 test vector: digest of the empty message. -/
theorem sha256Hex_empty :
    sha256Hex "" = "e3b0c44298fc1c149afbf4c8996fb92427ae41e4649b934ca495991b7852b855" := by
  decide

/-- FIPS 180-4 test vector: digest of "abc". -/
theorem sha256Hex_abc :
    sha256Hex "abc" = "ba7816bf8f01cfea414140de5dae2223b00361a396177a9cb410ff61f20015ad" := by
  decide

/-! ## Time (`time.Now().UTC().Format(time.RFC3339)`) and UUID (`uuid.New`) -/

/-- A UTC wall-clock instant as the source formats it. -/
structure DateTime where
  year : Nat
  month : Nat
  day : Nat
  hour : Nat
  minute : Nat
  second : Nat
deriving DecidableEq

/-- The ASCII digit character of a value below 10. -/
def digitChar (n : Nat) : Char := Char.ofNat (48 + n)

/-- Two-digit zero-padded decimal. -/
def pad2 (n : Nat) : String := ⟨[digitChar (n / 10 % 10), digitChar (n % 10)]⟩

/-- Four-digit zero-padded decimal (Go's year field for years up to 9999). -/
def pad4 (n : Nat) : String :=
  ⟨[digitChar (n / 1000 % 10), digitChar (n / 100 % 10), digitChar (n / 10 % 10),
    digitChar (n % 10)]⟩

/-- `t.Format(time.RFC3339)` for a UTC instant: `YYYY-MM-DDTHH:MM:SSZ`. -/
def formatRFC3339 (t : DateTime) : String :=
  pad4 t.year ++ "-" ++ pad2 t.month ++ "-" ++ pad2 t.day ++ "T" ++
  pad2 t.hour ++ ":" ++ pad2 t.minute ++ ":" ++ pad2 t.second ++ "Z"

/-- Leap-year rule of the Gregorian calendar. -/
def isLeapYear (y : Nat) : Bool := (y % 4 = 0 && !(y % 100 = 0)) || y % 400 = 0

/-- Days in a month. -/
def daysInMonth (y m : Nat) : Nat :=
  if m = 2 then (if isLeapYear y then 29 else 28)
  else if m = 4 ∨ m = 6 ∨ m = 9 ∨ m = 11 then 30 else 31

/-- A `DateTime` whose fields are in the ranges `time.Now` guarantees
    (year bounded so the RFC 3339 year field has four digits). -/
def validDateTime (t : DateTime) : Prop :=
  t.year ≤ 9999 ∧ 1 ≤ t.month ∧ t.month ≤ 12 ∧ 1 ≤ t.day ∧
  t.day ≤ daysInMonth t.year t.month ∧ t.hour ≤ 23 ∧ t.minute ≤ 59 ∧ t.second ≤ 59

instance (t : DateTime) : Decidable (validDateTime t) := by
  unfold validDateTime; infer_instance

/-- Read exactly two ASCII digits. -/
def parse2 : List Char → Option (Nat × List Char)
  | a :: b :: rest =>
    if isDigitChar a && isDigitChar b then
      some ((a.toNat - 48) * 10 + (b.toNat - 48), rest)
    else none
  | _ => none

/-- Read exactly four ASCII digits. -/
def parse4 : List Char → Option (Nat × List Char)
  | a :: b :: c :: d :: rest =>
    if isDigitChar a && isDigitChar b && isDigitChar c && isDigitChar d then
      some (((a.toNat - 48) * 10 + (b.toNat - 48)) * 100 +
        (c.toNat - 48) * 10 + (d.toNat - 48), rest)
    else none
  | _ => none

/-- Whether a string is a syntactically valid RFC 3339 UTC timestamp
    (`YYYY-MM-DDTHH:MM:SSZ` with in-range date and time components), the
    canonical form `time.Parse(time.RFC3339, ·)` accepts for UTC. -/
def rfc3339ValidUTC (s : String) : Bool :=
  match parse4 s.data with
  | some (y, '-' :: r1) =>
    match parse2 r1 with
    | some (mo, '-' :: r2) =>
      match parse2 r2 with
      | some (d, 'T' :: r3) =>
        match parse2 r3 with
        | some (h, ':' :: r4) =>
          match parse2 r4 with
          | some (mi, ':' :: r5) =>
            match parse2 r5 with
            | some (sec, ['Z']) =>
              decide (1 ≤ mo) && decide (mo ≤ 12) && decide (1 ≤ d) &&
              decide (d ≤ daysInMonth y mo) && decide (h ≤ 23) &&
              decide (mi ≤ 59) && decide (sec ≤ 59)
            | _ => false
          | _ => false
        | _ => false
      | _ => false
    | _ => false
  | _ => false

/-- `uuid.New()` applied to 16 random bytes: force version 4 and the
    RFC 4122 variant. -/
def uuidSetBits (r : List Nat) : List Nat :=
  (List.range 16).map (fun i =>
    let b := r.getD i 0
    if i = 6 then (b &&& 15) ||| 64
    else if i = 8 then (b &&& 63) ||| 128
    else b)

/-- `uuid.UUID.String()`: lower-case hex in 8-4-4-4-12 grouping. -/
def uuidString (r : List Nat) : String :=
  let u := uuidSetBits r
  ⟨hexEncode (u.take 4) ++ '-' :: (hexEncode ((u.drop 4).take 2) ++ '-' ::
    (hexEncode ((u.drop 6).take 2) ++ '-' :: (hexEncode ((u.drop 8).take 2) ++ '-' ::
      hexEncode (u.drop 10))))⟩

/-- Consume exactly `n` hex digits. -/
def consumeHex : Nat → List Char → Option (List Char)
  | 0, l => some l
  | n + 1, c :: rest => if isHexChar c then consumeHex n rest else none
  | _ + 1, [] => none

/-- Whether a string is a canonically formatted UUID
    (`xxxxxxxx-xxxx-xxxx-xxxx-xxxxxxxxxxxx`, hex digits), the 36-byte form
    `uuid.Parse` accepts. -/
def isValidUUIDString (s : String) : Bool :=
  match consumeHex 8 s.data with
  | some ('-' :: r1) =>
    match consumeHex 4 r1 with
    | some ('-' :: r2) =>
      match consumeHex 4 r2 with
      | some ('-' :: r3) =>
        match consumeHex 4 r3 with
        | some ('-' :: r4) =>
          match consumeHex 12 r4 with
          | some [] => true
          | _ => false
        | _ => false
      | _ => false
    | _ => false
  | _ => false

example : isValidUUIDString (uuidString [1,2,3,4,5,6,7,8,9,10,11,12,13,14,15,16]) = true := by
  decide
example : rfc3339ValidUTC (formatRFC3339 ⟨2026, 10, 11, 12, 0, 59⟩) = true := by decide

/-! ## CycloneDX document model (`sbom/cyclonedx.go`) -/

/-- `CDXTool`. -/
structure CDXTool where
  Vendor : String
  Name : String
  Version : String
deriving DecidableEq

/-- `CDXSubject`. -/
structure CDXSubject where
  «Type» : String
  Name : String
  Version : String := ""
deriving DecidableEq

/-- `CDXLicenseChoice`. -/
structure CDXLicenseChoice where
  ID : String := ""
  Name : String := ""
deriving DecidableEq

/-- `CDXLicense`. -/
structure CDXLicense where
  License : CDXLicenseChoice
deriving DecidableEq

/-- `CDXComponent`. -/
structure CDXComponent where
  «Type» : String
  BomRef : String
  Name : String
  Version : String
  PURL : String := ""
  Licenses : List CDXLicense := []
deriving DecidableEq

/-- `CDXMetadata`. -/
structure CDXMetadata where
  Timestamp : String
  Tools : List CDXTool
  Component : Option CDXSubject := none
deriving DecidableEq

/-- `CDXBom`. -/
structure CDXBom where
  XMLNS : String := ""
  BomFormat : String
  SpecVersion : String
  SerialNumber : String
  Version : Nat
  Metadata : CDXMetadata
  Components : List CDXComponent
deriving DecidableEq

/-! ## SPDX document model (`sbom/spdx.go`) -/

/-- `SPDXCreationInfo`. -/
structure SPDXCreationInfo where
  Created : String
  Creators : List String
  LicenseListVersion : String := ""
deriving DecidableEq

/-- `SPDXExternalRef`. -/
structure SPDXExternalRef where
  ReferenceCategory : String
  ReferenceType : String
  ReferenceLocator : String
deriving DecidableEq

/-- `SPDXChecksum`. -/
structure SPDXChecksum where
  Algorithm : String
  ChecksumValue : String
deriving DecidableEq

/-- `SPDXPackage`. -/
structure SPDXPackage where
  SPDXID : String
  Name : String
  VersionInfo : String := ""
  DownloadLocation : String
  FilesAnalyzed : Bool
  LicenseConcluded : String
  LicenseDeclared : String := ""
  CopyrightText : String
  ExternalRefs : List SPDXExternalRef := []
  PrimaryPackagePurpose : String := ""
  Checksums : List SPDXChecksum := []
deriving DecidableEq

/-- `SPDXRelationship`. -/
structure SPDXRelationship where
  SPDXElementID : String
  RelationshipType : String
  RelatedSPDXElement : String
deriving DecidableEq

/-- `SPDXDocument` (the two always-empty `[]interface{}` fields are
    represented as unit lists). -/
structure SPDXDocument where
  SPDXID : String
  SPDXVersion : String
  CreationInfo : SPDXCreationInfo
  Name : String
  DataLicense : String
  DocumentNamespace : String
  DocumentDescribes : List String
  Packages : List SPDXPackage
  Relationships : List SPDXRelationship
  ExternalDocumentRefs : List Unit := []
  HasExtractedLicensing : List Unit := []
deriving DecidableEq

/-! ## Generator -/

/-- `sbom.Generator`. -/
structure Generator where
  ToolName : String
  ToolVersion : String
deriving DecidableEq

/-- `NewGenerator`. -/
def NewGenerator : Generator := { ToolName := "Blueprint", ToolVersion := "1.0.0" }

/-- `sbom.GeneratorInput`.  `Files` is a Go `map[string]string`; it is
    modelled as the association list enumerating the map in the (arbitrary,
    unspecified) order a particular `range` iteration visits it. -/
structure GeneratorInput where
  OrgName : String
  RepoName : String
  Files : List (String × String)
  Format : String
  CommitSHA : String
  BranchName : String := ""
deriving DecidableEq

/-- `buildCycloneDXBom`: one library component per dependency, metadata
    from the input and the tool, a fresh serial number. -/
def buildCycloneDXBom (input : GeneratorInput) (deps : List Dependency) (g : Generator)
    (t : DateTime) (u : List Nat) : CDXBom :=
  let components := deps.enum.map (fun idep =>
    let i := idep.1
    let dep := idep.2
    let comp : CDXComponent :=
      { «Type» := "library", BomRef := "pkg-" ++ toString (i + 1), Name := dep.Name,
        Version := dep.Version, PURL := dep.PURL,
        Licenses := if dep.License ≠ "" then [{ License := { ID := dep.License } }] else [] }
    comp)
  let repoName := if input.OrgName ≠ "" then input.OrgName ++ "/" ++ input.RepoName
    else input.RepoName
  let subject : CDXSubject :=
    { «Type» := "application", Name := repoName, Version := input.CommitSHA }
  { BomFormat := "CycloneDX", SpecVersion := "1.4",
    SerialNumber := "urn:uuid:" ++ uuidString u, Version := 1,
    Metadata :=
      { Timestamp := formatRFC3339 t,
        Tools := [{ Vendor := "Build-Guard", Name := g.ToolName, Version := g.ToolVersion }],
        Component := some subject },
    Components := components }

/-- The SPDX package built for the dependency with 1-based index `i1`. -/
def spdxDepPackage (i1 : Nat) (dep : Dependency) : SPDXPackage :=
  let purlRef : SPDXExternalRef :=
    { ReferenceCategory := "PACKAGE-MANAGER", ReferenceType := "purl",
      ReferenceLocator := dep.PURL }
  let checksum : SPDXChecksum :=
    { Algorithm := "SHA256", ChecksumValue := sha256Hex (dep.Name ++ "@" ++ dep.Version) }
  { SPDXID := "SPDXRef-Package-" ++ toString i1, Name := dep.Name,
    VersionInfo := dep.Version, DownloadLocation := "NOASSERTION", FilesAnalyzed := false,
    LicenseConcluded := if dep.License ≠ "" then dep.License else "NOASSERTION",
    LicenseDeclared := if dep.License ≠ "" then dep.License else "",
    CopyrightText := "NOASSERTION",
    ExternalRefs := if dep.PURL ≠ "" then [purlRef] else [],
    Checksums := [checksum] }

/-- `buildSPDXDocument`: a root package describing the repository, one
    package per dependency, a DESCRIBES edge, and a DEPENDS_ON edge for
    each direct dependency. -/
def buildSPDXDocument (input : GeneratorInput) (deps : List Dependency) (g : Generator)
    (t : DateTime) (u : List Nat) : SPDXDocument :=
  let documentID := uuidString u
  let repoName := if input.OrgName ≠ "" then input.OrgName ++ "/" ++ input.RepoName
    else input.RepoName
  let rootSPDXID := "SPDXRef-Package-root"
  let rootPackage : SPDXPackage :=
    { SPDXID := rootSPDXID, Name := repoName, VersionInfo := input.CommitSHA,
      DownloadLocation := "https://github.com/" ++ repoName, FilesAnalyzed := false,
      LicenseConcluded := "NOASSERTION", CopyrightText := "NOASSERTION",
      PrimaryPackagePurpose := "APPLICATION" }
  let describes : SPDXRelationship :=
    { SPDXElementID := "SPDXRef-DOCUMENT", RelationshipType := "DESCRIBES",
      RelatedSPDXElement := rootSPDXID }
  { SPDXID := "SPDXRef-DOCUMENT", SPDXVersion := "SPDX-2.3",
    Name := "SBOM for " ++ repoName, DataLicense := "CC0-1.0",
    DocumentNamespace := "https://buildguard.io/spdx/" ++
      (⟨replaceAllL "/".data "-".data repoName.data⟩ : String) ++ "/" ++ documentID,
    CreationInfo :=
      { Created := formatRFC3339 t,
        Creators := ["Tool: " ++ g.ToolName ++ "-" ++ g.ToolVersion,
          "Organization: Build-Guard"],
        LicenseListVersion := "3.19" },
    DocumentDescribes := [rootSPDXID],
    Packages := rootPackage :: deps.enum.map (fun p => spdxDepPackage (p.1 + 1) p.2),
    Relationships := describes :: deps.enum.filterMap (fun p =>
      if p.2.Direct then
        some { SPDXElementID := rootSPDXID, RelationshipType := "DEPENDS_ON",
               RelatedSPDXElement := "SPDXRef-Package-" ++ toString (p.1 + 1) }
      else none) }

/-- The document model the serializers render; `Content` of the generated
    SBOM is the marshalled text of this structure. -/
inductive SBOMContent where
  | cdx (bom : CDXBom)
  | spdx (doc : SPDXDocument)
deriving DecidableEq

/-- `generateCycloneDXJSON` up to JSON marshalling (which never fails on
    this document model). -/
def generateCycloneDXJSON (input : GeneratorInput) (deps : List Dependency) (g : Generator)
    (t : DateTime) (u : List Nat) : Except String SBOMContent :=
  .ok (.cdx (buildCycloneDXBom input deps g t u))

/-- `generateCycloneDXXML` up to XML marshalling: same BOM with the 1.4
    namespace attribute set and `bomFormat` cleared. -/
def generateCycloneDXXML (input : GeneratorInput) (deps : List Dependency) (g : Generator)
    (t : DateTime) (u : List Nat) : Except String SBOMContent :=
  .ok (.cdx { buildCycloneDXBom input deps g t u with
    XMLNS := "http://cyclonedx.org/schema/bom/1.4", BomFormat := "" })

/-- `generateSPDXJSON` up to JSON marshalling. -/
def generateSPDXJSON (input : GeneratorInput) (deps : List Dependency) (g : Generator)
    (t : DateTime) (u : List Nat) : Except String SBOMContent :=
  .ok (.spdx (buildSPDXDocument input deps g t u))

/-- `sbom.GeneratedSBOM` (with `Content` as the pre-serialization document). -/
structure GeneratedSBOM where
  Format : String
  Content : SBOMContent
  Dependencies : List Dependency
  Stats : SBOMStats
  GeneratedAt : DateTime
  ToolName : String
  ToolVersion : String
deriving DecidableEq

/-- The aggregation loop of `Generate`: dispatch every file through the
    registry, skip files with no parser or a failing parse, concatenate
    the surviving dependency lists. -/
def collectDeps (files : List (String × String)) : List Dependency :=
  files.foldl
    (fun allDeps fc =>
      match GetParserForFile fc.1 with
      | none => allDeps
      | some parser =>
        match parserParse parser fc.2 with
        | .error _ => allDeps
        | .ok deps => allDeps ++ deps)
    []

/-- `Generator.Generate`: aggregate, compute stats, build the document in
    the requested format (any other format is an error), and assemble the
    result.  `t` is the current UTC time, `u` the random bytes
    `uuid.New()` consumes. -/
def Generator.Generate (g : Generator) (input : GeneratorInput) (t : DateTime)
    (u : List Nat) : Except String GeneratedSBOM :=
  let allDeps := collectDeps input.Files
  let stats := calculateStats allDeps
  let contentE : Except String SBOMContent :=
    if input.Format = FormatCycloneDXJSON then generateCycloneDXJSON input allDeps g t u
    else if input.Format = FormatCycloneDXXML then generateCycloneDXXML input allDeps g t u
    else if input.Format = FormatSPDXJSON then generateSPDXJSON input allDeps g t u
    else .error ("unsupported format: " ++ input.Format)
  match contentE with
  | .error e => .error e
  | .ok content =>
    .ok { Format := input.Format, Content := content, Dependencies := allDeps,
          Stats := stats, GeneratedAt := t, ToolName := g.ToolName,
          ToolVersion := g.ToolVersion }

/-! ## Sanity checks against the repository's own test fixtures -/

example :
    goModParse ("module github.com/example/myapp\n\ngo 1.21\n\nrequire (\n" ++
      "\tgithub.com/gin-gonic/gin v1.9.1\n\tgithub.com/google/uuid v1.3.0\n" ++
      "\tgolang.org/x/crypto v0.14.0 // indirect\n)\n\n" ++
      "require github.com/stretchr/testify v1.8.4\n") =
    .ok [
      { Name := "github.com/gin-gonic/gin", Version := "v1.9.1", «Type» := "go",
        Direct := true, PURL := "pkg:golang/github.com%2Fgin-gonic%2Fgin@v1.9.1" },
      { Name := "github.com/google/uuid", Version := "v1.3.0", «Type» := "go",
        Direct := true, PURL := "pkg:golang/github.com%2Fgoogle%2Fuuid@v1.3.0" },
      { Name := "golang.org/x/crypto", Version := "v0.14.0", «Type» := "go",
        Direct := false, PURL := "pkg:golang/golang.org%2Fx%2Fcrypto@v0.14.0" },
      { Name := "github.com/stretchr/testify", Version := "v1.8.4", «Type» := "go",
        Direct := true, PURL := "pkg:golang/github.com%2Fstretchr%2Ftestify@v1.8.4" }] := by
  decide

example :
    packageJSONParse ("\x7b\n  \"name\": \"my-app\",\n  \"version\": \"1.0.0\",\n" ++
      "  \"dependencies\": \x7b\n    \"express\": \"^4.18.2\",\n" ++
      "    \"@types/node\": \"~20.0.0\",\n    \"lodash\": \"4.17.21\"\n  \x7d,\n" ++
      "  \"devDependencies\": \x7b\n    \"jest\": \"^29.7.0\"\n  \x7d,\n" ++
      "  \"license\": \"MIT\"\n\x7d") =
    .ok [
      { Name := "express", Version := "4.18.2", «Type» := "npm", Direct := true,
        PURL := "pkg:npm/express@4.18.2" },
      { Name := "@types/node", Version := "20.0.0", «Type» := "npm", Direct := true,
        PURL := "pkg:npm/@types/node@20.0.0" },
      { Name := "lodash", Version := "4.17.21", «Type» := "npm", Direct := true,
        PURL := "pkg:npm/lodash@4.17.21" },
      { Name := "jest", Version := "29.7.0", «Type» := "npm", Direct := true,
        PURL := "pkg:npm/jest@29.7.0" }] := by
  decide

example :
    requirementsTxtParse ("# Main dependencies\nDjango==4.2.0\nrequests>=2.31.0\n" ++
      "flask[async]>=2.0.0\n\n# Development\npytest==7.4.0\n\n" ++
      "# Comments and empty lines are ignored\n\n# With environment markers (simplified)\n" ++
      "numpy==1.24.0; python_version >= \"3.9\"\n") =
    .ok [
      { Name := "Django", Version := "4.2.0", «Type» := "python", Direct := true,
        PURL := "pkg:pypi/django@4.2.0" },
      { Name := "requests", Version := "2.31.0", «Type» := "python", Direct := true,
        PURL := "pkg:pypi/requests@2.31.0" },
      { Name := "flask", Version := "2.0.0", «Type» := "python", Direct := true,
        PURL := "pkg:pypi/flask@2.0.0" },
      { Name := "pytest", Version := "7.4.0", «Type» := "python", Direct := true,
        PURL := "pkg:pypi/pytest@7.4.0" },
      { Name := "numpy", Version := "1.24.0", «Type» := "python", Direct := true,
        PURL := "pkg:pypi/numpy@1.24.0" }] := by
  decide

example : GetParserForFile "go.mod" = some .GoModParser := by decide
example : GetParserForFile "/path/to/go.mod" = some .GoModParser := by decide
example : GetParserForFile "package.json" = some .PackageJSONParser := by decide
example : GetParserForFile "/app/package.json" = some .PackageJSONParser := by decide
example : GetParserForFile "requirements.txt" = some .RequirementsTxtParser := by decide
example : GetParserForFile "requirements-dev.txt" = some .RequirementsTxtParser := by decide
example : GetParserForFile "unknown.txt" = none := by decide

example :
    calculateStats [
      { Name := "pkg1", Version := "", «Type» := "go", Direct := true, License := "MIT" },
      { Name := "pkg2", Version := "", «Type» := "go", Direct := false, License := "" },
      { Name := "pkg3", Version := "", «Type» := "npm", Direct := true,
        License := "Apache-2.0" }] =
    { TotalDependencies := 3, DirectDependencies := 2, WithLicense := 2,
      WithoutLicense := 1, Ecosystems := 2 } := by
  decide

/-! ## General helper lemmas -/

theorem hasPrefixL_iff (pat l : List Char) :
    hasPrefixL pat l = true ↔ ∃ t, l = pat ++ t := by
  induction pat generalizing l with
  | nil => simp [hasPrefixL]
  | cons p ps ih =>
    cases l with
    | nil => simp [hasPrefixL]
    | cons c cs =>
      simp only [hasPrefixL, Bool.and_eq_true, decide_eq_true_eq, ih, List.cons_append,
        List.cons.injEq]
      constructor
      · rintro ⟨rfl, t, rfl⟩
        exact ⟨t, rfl, rfl⟩
      · rintro ⟨t, rfl, rfl⟩
        exact ⟨rfl, t, rfl⟩

theorem hasSuffixL_iff (pat l : List Char) :
    hasSuffixL pat l = true ↔ ∃ t, l = t ++ pat := by
  unfold hasSuffixL
  rw [hasPrefixL_iff]
  constructor
  · rintro ⟨t, ht⟩
    refine ⟨t.reverse, ?_⟩
    have := congrArg List.reverse ht
    simpa using this
  · rintro ⟨t, rfl⟩
    exact ⟨t.reverse, by simp⟩

theorem filterMap_ite {α β : Type} (l : List α) (p : α → Bool) (f : α → β) :
    (l.filterMap fun a => if p a then some (f a) else none) = (l.filter p).map f := by
  induction l with
  | nil => simp
  | cons a l ih =>
    by_cases h : p a = true
    · simp [List.filterMap_cons, List.filter_cons, h, ih]
    · simp only [Bool.not_eq_true] at h
      simp [List.filterMap_cons, List.filter_cons, h, ih]

theorem countP_enumFrom {α : Type} (l : List α) (n : Nat) (p : α → Bool) :
    (l.enumFrom n).countP (fun q => p q.2) = l.countP p := by
  induction l generalizing n with
  | nil => rfl
  | cons a l ih =>
    simp only [List.enumFrom, List.countP_cons, ih]

/-- A throw-away dependency for `getD` indexing. -/
def dummyDep : Dependency := { Name := "", Version := "", «Type» := "", Direct := false }

/-- A throw-away SPDX package for `getD` indexing. -/
def dummyPkg : SPDXPackage :=
  { SPDXID := "", Name := "", DownloadLocation := "", FilesAnalyzed := false,
    LicenseConcluded := "", CopyrightText := "" }

/-- A throw-away CycloneDX component for `getD` indexing. -/
def dummyComp : CDXComponent := { «Type» := "", BomRef := "", Name := "", Version := "" }

theorem getD_map_enum {α β : Type} (l : List α) (f : Nat × α → β) (i : Nat)
    (h : i < l.length) (d : β) (dd : α) :
    (l.enum.map f).getD i d = f (i, l.getD i dd) := by
  have h1 : (l.enum.map f)[i]? = (l.enum[i]?).map f := by
    simp [List.getElem?_map]
  have h2 : l.enum[i]? = (l[i]?).map fun a => (i, a) := by
    simp [List.getElem?_enum]
  have h3 : l[i]? = some l[i] := List.getElem?_eq_getElem h
  rw [List.getD_eq_getElem?_getD, h1, h2, h3]
  simp [List.getD_eq_getElem?_getD, h3]

/-! ## Claim theorems -/

/-- C9: `matchPattern filename pattern` is true exactly when the filename
    equals the pattern or ends with `"/" ++ pattern`; the three concrete
    examples hold; and `GetParserForFile` tries the parsers in the fixed
    order Go, npm, Python, returning the first whose declared patterns
    match the filename, or none when no pattern matches. -/
theorem C9_registry_matching :
    (∀ filename pattern : String, matchPattern filename pattern = true ↔
      (filename = pattern ∨ ∃ pre, filename.data = pre ++ '/' :: pattern.data)) ∧
    matchPattern "go.mod" "go.mod" = true ∧
    matchPattern "a/b/go.mod" "go.mod" = true ∧
    matchPattern "go.mod.bak" "go.mod" = false ∧
    (∀ f : String, GetParserForFile f =
      if (filePatterns .GoModParser).any (fun pat => matchPattern f pat) then
        some .GoModParser
      else if (filePatterns .PackageJSONParser).any (fun pat => matchPattern f pat) then
        some .PackageJSONParser
      else if (filePatterns .RequirementsTxtParser).any (fun pat => matchPattern f pat) then
        some .RequirementsTxtParser
      else none) := by
  refine ⟨?_, by decide, by decide, by decide, ?_⟩
  · intro filename pattern
    unfold matchPattern
    rw [Bool.or_eq_true, decide_eq_true_eq, hasSuffixL_iff]
    constructor
    · rintro (h | ⟨t, ht⟩)
      · exact Or.inl h
      · refine Or.inr ⟨t, ?_⟩
        simpa [String.data_append] using ht
    · rintro (h | ⟨pre, hpre⟩)
      · exact Or.inl h
      · refine Or.inr ⟨pre, ?_⟩
        simpa [String.data_append] using hpre
  · intro f
    unfold GetParserForFile
    simp only [List.find?]
    rcases hgo : (filePatterns .GoModParser).any (fun pat => matchPattern f pat) with _ | _ <;>
      rcases hnpm : (filePatterns .PackageJSONParser).any (fun pat => matchPattern f pat)
        with _ | _ <;>
      rcases hpy : (filePatterns .RequirementsTxtParser).any (fun pat => matchPattern f pat)
        with _ | _ <;>
      simp [hgo, hnpm, hpy]

/-- Witness for C9 at concrete inputs. -/
theorem C9_registry_matching_witness :
    matchPattern "a/b/go.mod" "go.mod" = true ∧ GetParserForFile "unknown.txt" = none := by
  constructor
  · exact (C9_registry_matching.1 "a/b/go.mod" "go.mod").mpr
      (Or.inr ⟨"a/b".data, by decide⟩)
  · have h := C9_registry_matching.2.2.2.2 "unknown.txt"
    rw [h]
    decide

/-- C7: `cleanNpmVersion` strips a leading range operator and replaces
    `.x` segments with `.0` on the four example inputs, the scoped name
    `@types/node` keeps its scope in the PURL, and every name that does
    not start with `@` yields `pkg:npm/<name>@<version>`. -/
theorem C7_npm_version_and_purl :
    cleanNpmVersion "^4.18.2" = "4.18.2" ∧
    cleanNpmVersion "~20.0.0" = "20.0.0" ∧
    cleanNpmVersion "1.x.x" = "1.0.0" ∧
    cleanNpmVersion "1.2.x" = "1.2.0" ∧
    buildNpmPURL "@types/node" "20.0.0" = "pkg:npm/@types/node@20.0.0" ∧
    (∀ name version : String, hasPrefixL "@".data name.data = false →
      buildNpmPURL name version = "pkg:npm/" ++ name ++ "@" ++ version) := by
  refine ⟨by decide, by decide, by decide, by decide, by decide, ?_⟩
  intro name version h
  unfold buildNpmPURL
  rw [h]
  simp

/-- Witness for C7's universal part at a concrete unscoped name. -/
theorem C7_npm_version_and_purl_witness :
    buildNpmPURL "express" "4.18.2" = "pkg:npm/express@4.18.2" := by
  have h := C7_npm_version_and_purl.2.2.2.2.2 "express" "4.18.2" (by decide)
  simpa using h

/-- Every dependency `requirementsStep` appends is direct. -/
theorem requirementsStep_direct (deps : List Dependency) (line : List Char)
    (h : ∀ d ∈ deps, d.Direct = true) :
    ∀ d ∈ requirementsStep deps line, d.Direct = true := by
  intro d hd
  unfold requirementsStep at hd
  dsimp only at hd
  split at hd
  · exact h d hd
  · split at hd
    · exact h d hd
    · rcases List.mem_append.mp hd with h1 | h2
      · exact h d h1
      · simp only [List.mem_singleton] at h2
        subst h2
        rfl

/-- Every dependency in a fold of `requirementsStep` over any lines is
    direct, provided the accumulator's are. -/
theorem requirements_foldl_direct (lines : List (List Char)) (acc : List Dependency)
    (h : ∀ d ∈ acc, d.Direct = true) :
    ∀ d ∈ lines.foldl requirementsStep acc, d.Direct = true := by
  induction lines generalizing acc with
  | nil => exact h
  | cons line rest ih =>
    exact ih (requirementsStep acc line) (requirementsStep_direct acc line h)

/-- C8: `Django==4.2.0` and `flask[async]>=2.0.0` parse to the expected
    records (extras stripped from the name), every requirements.txt
    dependency is direct, and `buildPyPIPURL` lower-cases the name,
    maps `_` to `-`, and omits the `@version` suffix exactly when the
    version is empty. -/
theorem C8_requirements_parsing :
    requirementsTxtParse "Django==4.2.0" =
      .ok [{ Name := "Django", Version := "4.2.0", «Type» := "python", Direct := true,
             PURL := "pkg:pypi/django@4.2.0" }] ∧
    requirementsTxtParse "flask[async]>=2.0.0" =
      .ok [{ Name := "flask", Version := "2.0.0", «Type» := "python", Direct := true,
             PURL := "pkg:pypi/flask@2.0.0" }] ∧
    (∀ (content : String) (ds : List Dependency),
      requirementsTxtParse content = .ok ds → ∀ d ∈ ds, d.Direct = true) ∧
    (∀ name version : String, version ≠ "" →
      buildPyPIPURL name version =
        "pkg:pypi/" ++ (⟨replaceAllL "_".data "-".data (name.data.map asciiLowerChar)⟩ : String)
          ++ "@" ++ version) ∧
    (∀ name : String, buildPyPIPURL name "" =
      "pkg:pypi/" ++ (⟨replaceAllL "_".data "-".data (name.data.map asciiLowerChar)⟩ : String)) ∧
    buildPyPIPURL "my_package" "1.0.0" = "pkg:pypi/my-package@1.0.0" := by
  refine ⟨by decide, by decide, ?_, ?_, ?_, by decide⟩
  · intro content ds h
    unfold requirementsTxtParse at h
    injection h with h
    subst h
    exact requirements_foldl_direct _ [] (by intro d hd; cases hd)
  · intro name version h
    unfold buildPyPIPURL
    rw [if_pos h]
  · intro name
    unfold buildPyPIPURL
    rw [if_neg (by simp)]

/-- Witness for C8's universal parts at concrete inputs. -/
theorem C8_requirements_parsing_witness :
    (∀ d ∈ (["requests>=2.31.0".data].foldl requirementsStep []), d.Direct = true) ∧
    buildPyPIPURL "My_Pkg" "2.0" = "pkg:pypi/my-pkg@2.0" ∧
    buildPyPIPURL "My_Pkg" "" = "pkg:pypi/my-pkg" := by
  refine ⟨?_, ?_, ?_⟩
  · intro d hd
    exact C8_requirements_parsing.2.2.1 "requests>=2.31.0" _ rfl d hd
  · have h := C8_requirements_parsing.2.2.2.1 "My_Pkg" "2.0" (by decide)
    rw [h]
    decide
  · have h := C8_requirements_parsing.2.2.2.2.1 "My_Pkg"
    rw [h]
    decide

/-- C10: a line whose first character is whitespace never starts with the
    raw prefix `"require "`, so outside a require block the go.mod scan
    step produces no dependency from it — the dependency-line condition
    tests the raw line, not the trimmed line.  In contrast, the same
    directive at the first column does produce a dependency. -/
theorem C10_leading_whitespace_require :
    (∀ (c : Char) (rest : List Char) (deps : List Dependency),
      isUniSpace c = true → (goModStep (false, deps) (c :: rest)).2 = deps) ∧
    goModParse "  require example.com/x v1.0.0\n" = .ok [] ∧
    goModParse "require example.com/x v1.0.0\n" =
      .ok [{ Name := "example.com/x", Version := "v1.0.0", «Type» := "go", Direct := true,
             PURL := "pkg:golang/example.com%2Fx@v1.0.0" }] := by
  refine ⟨?_, by decide, by decide⟩
  intro c rest deps hc
  have hr : hasPrefixL "require ".data (c :: rest) = false := by
    have : ¬ ('r' : Char) = c := by
      intro h
      rw [← h] at hc
      simp [isUniSpace] at hc
    simp [hasPrefixL, this]
  unfold goModStep
  simp only [hr, Bool.or_false]
  split
  · rfl
  · split
    · rfl
    · split
      · rfl
      · split
        · rfl
        · rfl

/-- Witness for C10 at a concrete whitespace-led line. -/
theorem C10_leading_whitespace_require_witness :
    (goModStep (false, []) (' ' :: "require example.com/x v1.0.0".data)).2 = [] :=
  C10_leading_whitespace_require.1 ' ' "require example.com/x v1.0.0".data [] (by decide)

/-- C1: `ParseFormat` maps exactly the five strings to the three canonical
    formats, case-sensitively, and errors on every other string; and
    `Generate` on any input whose `Format` is not one of the three
    enumerated values returns exactly the format error — independently of
    the supplied files, so no partial output escapes. -/
theorem C1_format_selection :
    ParseFormat "cyclonedx-json" = .ok FormatCycloneDXJSON ∧
    ParseFormat "cyclonedx" = .ok FormatCycloneDXJSON ∧
    ParseFormat "cyclonedx-xml" = .ok FormatCycloneDXXML ∧
    ParseFormat "spdx-json" = .ok FormatSPDXJSON ∧
    ParseFormat "spdx" = .ok FormatSPDXJSON ∧
    (∀ s : String,
      s ∉ (["cyclonedx-json", "cyclonedx", "cyclonedx-xml", "spdx-json", "spdx"] : List String) →
      ParseFormat s = .error ("unknown SBOM format: " ++ s)) ∧
    (∀ (g : Generator) (input : GeneratorInput) (t : DateTime) (u : List Nat),
      input.Format ∉ ([FormatCycloneDXJSON, FormatCycloneDXXML, FormatSPDXJSON] : List String) →
      g.Generate input t u = .error ("unsupported format: " ++ input.Format) ∧
      g.Generate input t u = g.Generate { input with Files := [] } t u) := by
  refine ⟨by decide, by decide, by decide, by decide, by decide, ?_, ?_⟩
  · intro s hs
    simp only [List.mem_cons, List.mem_singleton, not_or] at hs
    obtain ⟨h1, h2, h3, h4, h5, -⟩ := hs
    unfold ParseFormat
    rw [if_neg (by tauto), if_neg h3, if_neg (by tauto)]
  · intro g input t u hf
    simp only [List.mem_cons, List.mem_singleton, not_or] at hf
    obtain ⟨h1, h2, h3, -⟩ := hf
    have key : ∀ inp : GeneratorInput, inp.Format = input.Format →
        g.Generate inp t u = .error ("unsupported format: " ++ input.Format) := by
      intro inp hfmt
      unfold Generator.Generate
      rw [hfmt]
      simp only [if_neg h1, if_neg h2, if_neg h3]
    exact ⟨key input rfl, (key input rfl).trans (key { input with Files := [] } rfl).symm⟩

/-! ### UUID and RFC 3339 well-formedness lemmas -/

theorem isHexChar_hexCharLower : ∀ n, n < 16 → isHexChar (hexCharLower n) = true := by
  decide

theorem hexEncode_mem_hex (bs : List Nat) : ∀ c ∈ hexEncode bs, isHexChar c = true := by
  intro c hc
  unfold hexEncode at hc
  rw [List.mem_flatten] at hc
  obtain ⟨l, hl, hcl⟩ := hc
  rw [List.mem_map] at hl
  obtain ⟨b, -, rfl⟩ := hl
  simp only [byteHex, List.mem_cons, List.not_mem_nil, or_false] at hcl
  rcases hcl with rfl | rfl
  · exact isHexChar_hexCharLower _ (Nat.mod_lt _ (by norm_num))
  · exact isHexChar_hexCharLower _ (Nat.mod_lt _ (by norm_num))

theorem hexEncode_length (bs : List Nat) : (hexEncode bs).length = 2 * bs.length := by
  induction bs with
  | nil => rfl
  | cons b bs ih =>
    unfold hexEncode at ih ⊢
    simp only [List.map_cons, List.flatten_cons, List.length_append, ih, byteHex,
      List.length_cons, List.length_nil, List.length_cons]
    omega

theorem consumeHex_append (hs rest : List Char) (h : ∀ c ∈ hs, isHexChar c = true) :
    consumeHex hs.length (hs ++ rest) = some rest := by
  induction hs with
  | nil => rfl
  | cons c cs ih =>
    simp only [List.length_cons, List.cons_append, consumeHex,
      h c (List.mem_cons_self c cs), if_true]
    exact ih (fun x hx => h x (List.mem_cons_of_mem c hx))

theorem isValidUUID_of_shape (s1 s2 s3 s4 s5 : List Char)
    (h1 : s1.length = 8) (h2 : s2.length = 4) (h3 : s3.length = 4) (h4 : s4.length = 4)
    (h5 : s5.length = 12)
    (m1 : ∀ c ∈ s1, isHexChar c = true) (m2 : ∀ c ∈ s2, isHexChar c = true)
    (m3 : ∀ c ∈ s3, isHexChar c = true) (m4 : ∀ c ∈ s4, isHexChar c = true)
    (m5 : ∀ c ∈ s5, isHexChar c = true) :
    isValidUUIDString ⟨s1 ++ '-' :: (s2 ++ '-' :: (s3 ++ '-' :: (s4 ++ '-' :: s5)))⟩ = true := by
  have e1 : consumeHex 8 (s1 ++ '-' :: (s2 ++ '-' :: (s3 ++ '-' :: (s4 ++ '-' :: s5)))) =
      some ('-' :: (s2 ++ '-' :: (s3 ++ '-' :: (s4 ++ '-' :: s5)))) := by
    rw [← h1]
    exact consumeHex_append s1 _ m1
  have e2 : consumeHex 4 (s2 ++ '-' :: (s3 ++ '-' :: (s4 ++ '-' :: s5))) =
      some ('-' :: (s3 ++ '-' :: (s4 ++ '-' :: s5))) := by
    rw [← h2]
    exact consumeHex_append s2 _ m2
  have e3 : consumeHex 4 (s3 ++ '-' :: (s4 ++ '-' :: s5)) =
      some ('-' :: (s4 ++ '-' :: s5)) := by
    rw [← h3]
    exact consumeHex_append s3 _ m3
  have e4 : consumeHex 4 (s4 ++ '-' :: s5) = some ('-' :: s5) := by
    rw [← h4]
    exact consumeHex_append s4 _ m4
  have e5 : consumeHex 12 s5 = some ([] : List Char) := by
    have h := consumeHex_append s5 [] m5
    rw [List.append_nil] at h
    rw [← h5]
    exact h
  unfold isValidUUIDString
  simp only [e1, e2, e3, e4, e5]

theorem uuidString_valid (r : List Nat) : isValidUUIDString (uuidString r) = true := by
  have hu : (uuidSetBits r).length = 16 := by simp [uuidSetBits]
  unfold uuidString
  apply isValidUUID_of_shape
  · rw [hexEncode_length, List.length_take, hu]
    decide
  · rw [hexEncode_length, List.length_take, List.length_drop, hu]
    decide
  · rw [hexEncode_length, List.length_take, List.length_drop, hu]
    decide
  · rw [hexEncode_length, List.length_take, List.length_drop, hu]
    decide
  · rw [hexEncode_length, List.length_drop, hu]
  all_goals exact hexEncode_mem_hex _

theorem digitChar_facts : ∀ k, k < 10 →
    isDigitChar (digitChar k) = true ∧ (digitChar k).toNat = 48 + k := by
  decide

theorem parse2_pad2 (n : Nat) (rest : List Char) (h : n < 100) :
    parse2 ((pad2 n).data ++ rest) = some (n, rest) := by
  have h1 : n / 10 % 10 < 10 := Nat.mod_lt _ (by norm_num)
  have h2 : n % 10 < 10 := Nat.mod_lt _ (by norm_num)
  obtain ⟨d1, e1⟩ := digitChar_facts _ h1
  obtain ⟨d2, e2⟩ := digitChar_facts _ h2
  show parse2 (digitChar (n / 10 % 10) :: digitChar (n % 10) :: rest) = some (n, rest)
  simp only [parse2, d1, d2, Bool.and_self, if_true, e1, e2, Option.some.injEq,
    Prod.mk.injEq]
  exact ⟨by omega, trivial⟩

theorem parse4_pad4 (n : Nat) (rest : List Char) (h : n < 10000) :
    parse4 ((pad4 n).data ++ rest) = some (n, rest) := by
  have h1 : n / 1000 % 10 < 10 := Nat.mod_lt _ (by norm_num)
  have h2 : n / 100 % 10 < 10 := Nat.mod_lt _ (by norm_num)
  have h3 : n / 10 % 10 < 10 := Nat.mod_lt _ (by norm_num)
  have h4 : n % 10 < 10 := Nat.mod_lt _ (by norm_num)
  obtain ⟨d1, e1⟩ := digitChar_facts _ h1
  obtain ⟨d2, e2⟩ := digitChar_facts _ h2
  obtain ⟨d3, e3⟩ := digitChar_facts _ h3
  obtain ⟨d4, e4⟩ := digitChar_facts _ h4
  show parse4 (digitChar (n / 1000 % 10) :: digitChar (n / 100 % 10) ::
    digitChar (n / 10 % 10) :: digitChar (n % 10) :: rest) = some (n, rest)
  simp only [parse4, d1, d2, d3, d4, Bool.and_self, if_true, e1, e2, e3, e4,
    Option.some.injEq, Prod.mk.injEq]
  exact ⟨by omega, trivial⟩

theorem daysInMonth_le (y m : Nat) : daysInMonth y m ≤ 31 := by
  unfold daysInMonth
  split
  · split <;> norm_num
  · split <;> norm_num

theorem rfc3339_format_valid (t : DateTime) (h : validDateTime t) :
    rfc3339ValidUTC (formatRFC3339 t) = true := by
  obtain ⟨hy, hm1, hm2, hd1, hd2, hh, hmi, hs⟩ := h
  have hdm := daysInMonth_le t.year t.month
  have hdata : (formatRFC3339 t).data =
      (pad4 t.year).data ++ '-' :: ((pad2 t.month).data ++ '-' :: ((pad2 t.day).data ++
        'T' :: ((pad2 t.hour).data ++ ':' :: ((pad2 t.minute).data ++ ':' ::
          ((pad2 t.second).data ++ ['Z']))))) := by
    simp [formatRFC3339, String.data_append]
  unfold rfc3339ValidUTC
  rw [hdata]
  rw [parse4_pad4 _ _ (by omega)]
  simp only
  rw [parse2_pad2 _ _ (by omega)]
  simp only
  rw [parse2_pad2 _ _ (by omega)]
  simp only
  rw [parse2_pad2 _ _ (by omega)]
  simp only
  rw [parse2_pad2 _ _ (by omega)]
  simp only
  rw [parse2_pad2 _ _ (by omega)]
  simp only [decide_eq_true_eq, Bool.and_eq_true]
  exact ⟨⟨⟨⟨⟨⟨hm1, hm2⟩, hd1⟩, hd2⟩, hh⟩, hmi⟩, hs⟩

/-- C4: the CycloneDX BOM has one library component per dependency with
    `bom-ref` `pkg-<i>` (1-based), the dependency's name, version and
    PURL, and a single license identifier entry exactly when the license
    is non-empty; the JSON generator emits this BOM with
    `bomFormat = "CycloneDX"` and `specVersion = "1.4"`; the serial number
    is `urn:uuid:` followed by a string that is always a valid UUID; and
    the metadata timestamp of any valid generation instant is valid
    RFC 3339. -/
theorem C4_cyclonedx_shape (input : GeneratorInput) (deps : List Dependency) (g : Generator)
    (t : DateTime) (u : List Nat) :
    (buildCycloneDXBom input deps g t u).Components.length = deps.length ∧
    (∀ i, i < deps.length →
      (buildCycloneDXBom input deps g t u).Components.getD i dummyComp =
        { «Type» := "library", BomRef := "pkg-" ++ toString (i + 1),
          Name := (deps.getD i dummyDep).Name, Version := (deps.getD i dummyDep).Version,
          PURL := (deps.getD i dummyDep).PURL,
          Licenses :=
            if (deps.getD i dummyDep).License ≠ "" then
              [{ License := { ID := (deps.getD i dummyDep).License } }]
            else [] }) ∧
    generateCycloneDXJSON input deps g t u = .ok (.cdx (buildCycloneDXBom input deps g t u)) ∧
    (buildCycloneDXBom input deps g t u).BomFormat = "CycloneDX" ∧
    (buildCycloneDXBom input deps g t u).SpecVersion = "1.4" ∧
    (buildCycloneDXBom input deps g t u).SerialNumber = "urn:uuid:" ++ uuidString u ∧
    isValidUUIDString (uuidString u) = true ∧
    (validDateTime t →
      rfc3339ValidUTC (buildCycloneDXBom input deps g t u).Metadata.Timestamp = true) := by
    refine ⟨?_, ?_, rfl, rfl, rfl, rfl, uuidString_valid u, ?_⟩
    · simp [buildCycloneDXBom, List.enum_length]
    · intro i hi
      unfold buildCycloneDXBom
      exact getD_map_enum deps _ i hi dummyComp dummyDep
    · intro ht
      exact rfc3339_format_valid t ht

/-- A concrete generation request for witnesses. -/
def exInput : GeneratorInput :=
  { OrgName := "o", RepoName := "r", Files := [], Format := "", CommitSHA := "c" }

/-- A concrete dependency list (one licensed direct, one unlicensed
    indirect without PURL) for witnesses. -/
def exDeps : List Dependency :=
  [{ Name := "a", Version := "1", «Type» := "go", Direct := true, License := "MIT",
     PURL := "pkg:golang/a@1" },
   { Name := "b", Version := "2", «Type» := "npm", Direct := false }]

/-- A concrete generation instant for witnesses. -/
def exTime : DateTime := ⟨2026, 10, 11, 1, 2, 3⟩

/-- Concrete UUID random bytes for witnesses. -/
def exUuid : List Nat := [0, 1, 2, 3, 4, 5, 6, 7, 8, 9, 10, 11, 12, 13, 14, 15]

/-- Witness for C4 at a concrete dependency list, instant and byte stream. -/
theorem C4_cyclonedx_shape_witness :
    (buildCycloneDXBom exInput exDeps NewGenerator exTime exUuid).Components.getD 0 dummyComp =
      { «Type» := "library", BomRef := "pkg-1", Name := "a", Version := "1",
        PURL := "pkg:golang/a@1", Licenses := [{ License := { ID := "MIT" } }] } ∧
    rfc3339ValidUTC
      (buildCycloneDXBom exInput exDeps NewGenerator exTime exUuid).Metadata.Timestamp =
      true := by
  have h := C4_cyclonedx_shape exInput exDeps NewGenerator exTime exUuid
  refine ⟨?_, h.2.2.2.2.2.2.2 (by decide)⟩
  have h2 := h.2.1 0 (by decide)
  rw [h2]
  decide

/-- A throw-away SPDX relationship for `getD` indexing. -/
def dummyRel : SPDXRelationship :=
  { SPDXElementID := "", RelationshipType := "", RelatedSPDXElement := "" }

/-- C3: the SPDX document over `N` dependencies (`M` of them direct) has
    `N + 1` packages — the root `SPDXRef-Package-root` plus
    `SPDXRef-Package-<i>` (1-based) per dependency — and `1 + M`
    relationships: one DESCRIBES edge from the document to the root, plus
    one DEPENDS_ON edge from the root to each direct dependency in index
    order and none for indirect ones; a dependency with empty license has
    `licenseConcluded = "NOASSERTION"`, one with empty PURL has no external
    references, and every dependency package carries the SHA-256 checksum
    of the literal string `<name>@<version>`. -/
theorem C3_spdx_shape (input : GeneratorInput) (deps : List Dependency) (g : Generator)
    (t : DateTime) (u : List Nat) :
    (buildSPDXDocument input deps g t u).Packages.length = deps.length + 1 ∧
    ((buildSPDXDocument input deps g t u).Packages.getD 0 dummyPkg).SPDXID =
      "SPDXRef-Package-root" ∧
    (∀ i, i < deps.length →
      ((buildSPDXDocument input deps g t u).Packages.getD (i + 1) dummyPkg).SPDXID =
        "SPDXRef-Package-" ++ toString (i + 1) ∧
      ((deps.getD i dummyDep).License = "" →
        ((buildSPDXDocument input deps g t u).Packages.getD (i + 1) dummyPkg).LicenseConcluded =
          "NOASSERTION") ∧
      ((deps.getD i dummyDep).PURL = "" →
        ((buildSPDXDocument input deps g t u).Packages.getD (i + 1) dummyPkg).ExternalRefs =
          []) ∧
      ((buildSPDXDocument input deps g t u).Packages.getD (i + 1) dummyPkg).Checksums =
        [{ Algorithm := "SHA256",
           ChecksumValue :=
             sha256Hex ((deps.getD i dummyDep).Name ++ "@" ++ (deps.getD i dummyDep).Version) }]) ∧
    (buildSPDXDocument input deps g t u).Relationships.length =
      1 + deps.countP (fun d => d.Direct) ∧
    (buildSPDXDocument input deps g t u).Relationships.getD 0 dummyRel =
      { SPDXElementID := "SPDXRef-DOCUMENT", RelationshipType := "DESCRIBES",
        RelatedSPDXElement := "SPDXRef-Package-root" } ∧
    (buildSPDXDocument input deps g t u).Relationships.tail =
      ((deps.enum.filter fun p => p.2.Direct).map fun p =>
        ({ SPDXElementID := "SPDXRef-Package-root", RelationshipType := "DEPENDS_ON",
           RelatedSPDXElement := "SPDXRef-Package-" ++ toString (p.1 + 1) } :
          SPDXRelationship)) := by
  refine ⟨?_, rfl, ?_, ?_, rfl, ?_⟩
  · show (_ :: deps.enum.map _).length = deps.length + 1
    simp [List.enum_length]
  · intro i hi
    have hpkg : (buildSPDXDocument input deps g t u).Packages.getD (i + 1) dummyPkg =
        spdxDepPackage (i + 1) (deps.getD i dummyDep) := by
      show (_ :: deps.enum.map _).getD (i + 1) dummyPkg = _
      rw [List.getD_cons_succ]
      exact getD_map_enum deps _ i hi dummyPkg dummyDep
    refine ⟨by rw [hpkg]; rfl, ?_, ?_, by rw [hpkg]; rfl⟩
    · intro hL
      rw [hpkg]
      show (if (deps.getD i dummyDep).License ≠ "" then (deps.getD i dummyDep).License
        else "NOASSERTION") = "NOASSERTION"
      rw [if_neg (show ¬(deps.getD i dummyDep).License ≠ "" from fun h => h hL)]
    · intro hP
      rw [hpkg]
      show (if (deps.getD i dummyDep).PURL ≠ "" then _ else []) = []
      rw [if_neg (show ¬(deps.getD i dummyDep).PURL ≠ "" from fun h => h hP)]
  · show (_ :: deps.enum.filterMap _).length = 1 + deps.countP (fun d => d.Direct)
    rw [List.length_cons, filterMap_ite, List.length_map, ← List.countP_eq_length_filter,
      show deps.enum.countP (fun p => p.2.Direct) = deps.countP (fun d => d.Direct) from
        countP_enumFrom deps 0 _]
    omega
  · show (_ :: deps.enum.filterMap _).tail = _
    rw [List.tail_cons, filterMap_ite]

/-- Witness for C3 at the concrete example dependency list. -/
theorem C3_spdx_shape_witness :
    (buildSPDXDocument exInput exDeps NewGenerator exTime exUuid).Packages.length = 3 ∧
    ((buildSPDXDocument exInput exDeps NewGenerator exTime exUuid).Packages.getD 2
      dummyPkg).LicenseConcluded = "NOASSERTION" ∧
    ((buildSPDXDocument exInput exDeps NewGenerator exTime exUuid).Packages.getD 2
      dummyPkg).ExternalRefs = [] ∧
    (buildSPDXDocument exInput exDeps NewGenerator exTime exUuid).Relationships.length = 2 := by
  have h := C3_spdx_shape exInput exDeps NewGenerator exTime exUuid
  have h1 := h.2.2.1 1 (by decide)
  refine ⟨by rw [h.1]; decide, ?_, ?_, by rw [h.2.2.2.1]; decide⟩
  · exact h1.2.1 (by decide)
  · exact h1.2.2.1 (by decide)

/-- `Generate` depends on `Files` only through the aggregated dependency
    list. -/
theorem Generate_files_irrelevant (g : Generator) (input : GeneratorInput) (t : DateTime)
    (u : List Nat) (X : List (String × String))
    (h : collectDeps input.Files = collectDeps X) :
    g.Generate input t u = g.Generate { input with Files := X } t u := by
  unfold Generator.Generate
  dsimp only
  rw [h]
  rfl

/-- A file whose parser resolution fails, or whose parse errors,
    contributes nothing to the aggregation. -/
theorem collectDeps_skip (l₁ l₂ : List (String × String)) (fn c : String)
    (hbad : GetParserForFile fn = none ∨
      ∃ p e, GetParserForFile fn = some p ∧ parserParse p c = .error e) :
    collectDeps (l₁ ++ (fn, c) :: l₂) = collectDeps (l₁ ++ l₂) := by
  have hstep : ∀ acc : List Dependency,
      (match GetParserForFile fn with
       | none => acc
       | some parser =>
         match parserParse parser c with
         | .error _ => acc
         | .ok ds => acc ++ ds) = acc := by
    intro acc
    rcases hbad with hnone | ⟨p, e, hp, he⟩
    · rw [hnone]
    · simp only [hp, he]
  unfold collectDeps
  rw [List.foldl_append, List.foldl_append, List.foldl_cons]
  congr 1
  exact hstep _

/-- C2: a file with no matching parser or a failing parse is skipped —
    generation over any `Files` sequence containing it equals generation
    with that file removed, so it contributes zero dependencies, aborts
    nothing and leaves the other files' contributions intact; and when the
    aggregated dependency list is empty, any recognized format still
    yields a document with no error, no dependencies, no CycloneDX
    components, and only the root package and DESCRIBES relationship in
    SPDX. -/
theorem C2_tolerated_failures_and_empty (g : Generator) (input : GeneratorInput)
    (t : DateTime) (u : List Nat) :
    (∀ (l₁ l₂ : List (String × String)) (fn c : String),
      (GetParserForFile fn = none ∨
        ∃ p e, GetParserForFile fn = some p ∧ parserParse p c = .error e) →
      input.Files = l₁ ++ (fn, c) :: l₂ →
      g.Generate input t u = g.Generate { input with Files := l₁ ++ l₂ } t u) ∧
    (collectDeps input.Files = [] →
      (input.Format = FormatCycloneDXJSON ∨ input.Format = FormatCycloneDXXML ∨
        input.Format = FormatSPDXJSON) →
      ∃ r, g.Generate input t u = .ok r ∧ r.Dependencies = [] ∧
        (∀ bom, r.Content = .cdx bom → bom.Components = []) ∧
        (∀ doc, r.Content = .spdx doc →
          doc.Packages.length = 1 ∧ doc.Relationships.length = 1)) := by
  constructor
  · intro l₁ l₂ fn c hbad hfiles
    apply Generate_files_irrelevant
    rw [hfiles]
    exact collectDeps_skip l₁ l₂ fn c hbad
  · intro hcol hfmt
    rcases hfmt with hf | hf | hf
    · have hgen : g.Generate input t u = .ok
          { Format := input.Format,
            Content := .cdx (buildCycloneDXBom input (collectDeps input.Files) g t u),
            Dependencies := collectDeps input.Files,
            Stats := calculateStats (collectDeps input.Files),
            GeneratedAt := t, ToolName := g.ToolName, ToolVersion := g.ToolVersion } := by
        unfold Generator.Generate
        dsimp only
        rw [hf, if_pos rfl]
        rfl
      refine ⟨_, hgen, hcol, ?_, ?_⟩
      · intro bom hb
        injection hb with hb
        rw [← hb]
        show ((collectDeps input.Files).enum.map _) = []
        rw [hcol]
        rfl
      · intro doc hd
        exact SBOMContent.noConfusion hd
    · have hgen : g.Generate input t u = .ok
          { Format := input.Format,
            Content := .cdx { buildCycloneDXBom input (collectDeps input.Files) g t u with
              XMLNS := "http://cyclonedx.org/schema/bom/1.4", BomFormat := "" },
            Dependencies := collectDeps input.Files,
            Stats := calculateStats (collectDeps input.Files),
            GeneratedAt := t, ToolName := g.ToolName, ToolVersion := g.ToolVersion } := by
        unfold Generator.Generate
        dsimp only
        rw [hf, if_neg (by decide), if_pos rfl]
        rfl
      refine ⟨_, hgen, hcol, ?_, ?_⟩
      · intro bom hb
        injection hb with hb
        rw [← hb]
        show ((collectDeps input.Files).enum.map _) = []
        rw [hcol]
        rfl
      · intro doc hd
        exact SBOMContent.noConfusion hd
    · have hgen : g.Generate input t u = .ok
          { Format := input.Format,
            Content := .spdx (buildSPDXDocument input (collectDeps input.Files) g t u),
            Dependencies := collectDeps input.Files,
            Stats := calculateStats (collectDeps input.Files),
            GeneratedAt := t, ToolName := g.ToolName, ToolVersion := g.ToolVersion } := by
        unfold Generator.Generate
        dsimp only
        rw [hf, if_neg (by decide), if_neg (by decide), if_pos rfl]
        rfl
      refine ⟨_, hgen, hcol, ?_, ?_⟩
      · intro bom hb
        exact SBOMContent.noConfusion hb
      · intro doc hd
        injection hd with hd
        rw [← hd]
        constructor
        · show (_ :: (collectDeps input.Files).enum.map _).length = 1
          rw [hcol]
          rfl
        · show (_ :: (collectDeps input.Files).enum.filterMap _).length = 1
          rw [hcol]
          rfl

/-! ### Go manifest parsing machinery (C6) -/

theorem notRegexSpace_of_notUni (c : Char) (h : isUniSpace c = false) :
    isRegexSpace c = false := by
  cases hr : isRegexSpace c with
  | false => rfl
  | true =>
    exfalso
    simp only [isRegexSpace, Bool.or_eq_true, decide_eq_true_eq] at hr
    simp only [isUniSpace, Bool.or_eq_false_iff, decide_eq_false_iff_not] at h
    omega

theorem digitDot_props (c : Char) (h : isDigitDot c = true) :
    isUniSpace c = false ∧ isRegexSpace c = false ∧ c ≠ '(' ∧ c ≠ '/' ∧ c ≠ '\r' := by
  simp only [isDigitDot, Bool.or_eq_true, Bool.and_eq_true, decide_eq_true_eq] at h
  refine ⟨?_, ?_, ?_, ?_, ?_⟩
  · simp only [isUniSpace, Bool.or_eq_false_iff, decide_eq_false_iff_not]
    omega
  · simp only [isRegexSpace, Bool.or_eq_false_iff, decide_eq_false_iff_not]
    omega
  · intro rfl_eq
    rw [rfl_eq] at h
    revert h
    decide
  · intro rfl_eq
    rw [rfl_eq] at h
    revert h
    decide
  · intro rfl_eq
    rw [rfl_eq] at h
    revert h
    decide

theorem hasPrefixL_append_self (a t : List Char) : hasPrefixL a (a ++ t) = true :=
  (hasPrefixL_iff a (a ++ t)).mpr ⟨t, rfl⟩

theorem hasPrefixL_of_append_prefix (a b l : List Char)
    (h : hasPrefixL (a ++ b) l = true) : hasPrefixL a l = true := by
  rw [hasPrefixL_iff] at h ⊢
  obtain ⟨t, rfl⟩ := h
  exact ⟨b ++ t, by rw [List.append_assoc]⟩

theorem hasPrefixL_append_false (pat a : List Char) (x : Char) (r : List Char)
    (h1 : hasPrefixL pat a = false) (h2 : ∀ c ∈ pat, c ≠ x) :
    hasPrefixL pat (a ++ x :: r) = false := by
  induction pat generalizing a with
  | nil => simp [hasPrefixL] at h1
  | cons q qs ih =>
    cases a with
    | nil =>
      simp only [List.nil_append, hasPrefixL, Bool.and_eq_false_iff]
      exact Or.inl (by simp [h2 q (List.mem_cons_self q qs)])
    | cons b bs =>
      simp only [List.cons_append, hasPrefixL, Bool.and_eq_false_iff] at h1 ⊢
      rcases h1 with h1 | h1
      · exact Or.inl h1
      · exact Or.inr (ih bs h1 (fun c hc => h2 c (List.mem_cons_of_mem q hc)))

/-- Splitting `trimL`: a leading whitespace character is dropped. -/
theorem trimL_cons_space (c : Char) (X : List Char) (hc : isUniSpace c = true) :
    trimL (c :: X) = trimL X := by
  unfold trimL
  rw [List.dropWhile_cons_of_pos (by simp [hc])]

/-- `trimL` is the identity when both ends are not whitespace. -/
theorem trimL_id (X : List Char)
    (h1 : ∃ c r, X = c :: r ∧ isUniSpace c = false)
    (h2 : ∃ i d, X = i ++ [d] ∧ isUniSpace d = false) : trimL X = X := by
  obtain ⟨c, r, hcr, hc⟩ := h1
  obtain ⟨i, d, hid, hd⟩ := h2
  unfold trimL
  rw [show X.dropWhile isUniSpace = X by rw [hcr]; exact List.dropWhile_cons_of_neg (by simp [hc])]
  rw [hid, show ((i ++ [d]).reverse) = d :: i.reverse by simp,
    List.dropWhile_cons_of_neg (by simp [hd])]
  simp

/-- `indirectAt` needs a slash first. -/
theorem indirectAt_not_slash (c : Char) (rest : List Char) (hc : c ≠ '/') :
    indirectAt (c :: rest) = false := by
  unfold indirectAt
  split
  · next h =>
    injection h with h1 _
    exact absurd h1 hc
  · rfl

/-- `indirectAt` needs a second slash. -/
theorem indirectAt_not_slash2 (a b : Char) (r : List Char) (hb : b ≠ '/') :
    indirectAt (a :: b :: r) = false := by
  unfold indirectAt
  split
  · next h =>
    injection h with _ h2
    injection h2 with h2 _
    exact absurd h2 hb
  · rfl

/-- A slash-free text never contains the indirect comment. -/
theorem hasIndirect_no_slash (l : List Char) (h : ∀ c ∈ l, c ≠ '/') :
    hasIndirectComment l = false := by
  induction l with
  | nil => rfl
  | cons c rest ih =>
    show (indirectAt (c :: rest) || hasIndirectComment rest) = false
    rw [indirectAt_not_slash c rest (h c (List.mem_cons_self c rest)),
      ih (fun x hx => h x (List.mem_cons_of_mem c hx))]
    rfl

/-- Scanning an appended text from the left, a slash-free prefix never
    matches. -/
theorem hasIndirect_append_left (l m : List Char) (hl : ∀ c ∈ l, c ≠ '/')
    (hm : hasIndirectComment m = false) : hasIndirectComment (l ++ m) = false := by
  induction l with
  | nil => exact hm
  | cons c rest ih =>
    show (indirectAt (c :: (rest ++ m)) || hasIndirectComment (rest ++ m)) = false
    rw [indirectAt_not_slash c _ (hl c (List.mem_cons_self c rest)),
      ih (fun x hx => hl x (List.mem_cons_of_mem c hx))]
    rfl

/-- If the indirect comment occurs in the right part, the scan finds it. -/
theorem hasIndirect_append_right (l m : List Char) (h : hasIndirectComment m = true) :
    hasIndirectComment (l ++ m) = true := by
  induction l with
  | nil => exact h
  | cons c rest ih =>
    show (indirectAt (c :: (rest ++ m)) || hasIndirectComment (rest ++ m)) = true
    rw [ih]
    exact Bool.or_true _

theorem containsSubL_tail (pat : List Char) (c : Char) (rest : List Char)
    (h : containsSubL pat (c :: rest) = false) : containsSubL pat rest = false := by
  have := congrArg id h
  unfold containsSubL at this
  rcases Bool.or_eq_false_iff.mp this with ⟨-, h2⟩
  exact h2

theorem containsSubL_head (pat : List Char) (c : Char) (rest : List Char)
    (h : containsSubL pat (c :: rest) = false) : hasPrefixL pat (c :: rest) = false := by
  have := congrArg id h
  unfold containsSubL at this
  exact (Bool.or_eq_false_iff.mp this).1

/-- Core scan lemma: over `p ++ ' ' :: 'v' :: ds` with `p` slash-clean of
    `//indirect` and whitespace-free and `ds` all digits/dots, the
    indirect-comment regex never matches. -/
theorem hasIndirect_main (p ds : List Char)
    (hns : ∀ c ∈ p, isRegexSpace c = false)
    (hinf : containsSubL "//indirect".data p = false)
    (hds : ∀ c ∈ ds, isDigitDot c = true) :
    hasIndirectComment (p ++ ' ' :: 'v' :: ds) = false := by
  induction p with
  | nil =>
    apply hasIndirect_no_slash
    intro c hc
    simp only [List.nil_append, List.mem_cons] at hc
    rcases hc with rfl | rfl | hc
    · decide
    · decide
    · exact (digitDot_props c (hds c hc)).2.2.2.1
  | cons a p ih =>
    have ihp : hasIndirectComment (p ++ ' ' :: 'v' :: ds) = false :=
      ih (fun c hc => hns c (List.mem_cons_of_mem a hc)) (containsSubL_tail _ a p hinf)
    show (indirectAt (a :: (p ++ ' ' :: 'v' :: ds)) ||
      hasIndirectComment (p ++ ' ' :: 'v' :: ds)) = false
    rw [ihp, Bool.or_false]
    by_cases ha : a = '/'
    · subst ha
      cases p with
      | nil =>
        show indirectAt ('/' :: ' ' :: 'v' :: ds) = false
        exact indirectAt_not_slash2 _ _ _ (by decide)
      | cons b p2 =>
        by_cases hb : b = '/'
        · subst hb
          show indirectAt ('/' :: '/' :: (p2 ++ ' ' :: 'v' :: ds)) = false
          unfold indirectAt
          have hdrop : (p2 ++ ' ' :: 'v' :: ds).dropWhile isRegexSpace =
              p2 ++ ' ' :: 'v' :: ds ∨ (p2 = [] ∧
              (p2 ++ ' ' :: 'v' :: ds).dropWhile isRegexSpace = 'v' :: ds) := by
            cases p2 with
            | nil =>
              right
              refine ⟨rfl, ?_⟩
              rw [List.nil_append, List.dropWhile_cons_of_pos (by decide),
                List.dropWhile_cons_of_neg (by decide)]
            | cons x p3 =>
              left
              rw [List.cons_append, List.dropWhile_cons_of_neg
                (by simp [hns x (by simp)])]
          have hpre : hasPrefixL "indirect".data p2 = false := by
            have h1 := containsSubL_head _ '/' ('/' :: p2) hinf
            have : ("//indirect".data : List Char) = '/' :: '/' :: "indirect".data := by decide
            rw [this] at h1
            simp only [hasPrefixL, decide_eq_true_eq, Bool.true_and, Bool.and_eq_false_iff] at h1
            rcases h1 with h1 | h1
            · simp at h1
            · rcases h1 with h1 | h1
              · simp at h1
              · exact h1
          rcases hdrop with hd | ⟨hp2, hd⟩
          · show hasPrefixL "indirect".data
              ((p2 ++ ' ' :: 'v' :: ds).dropWhile isRegexSpace) = false
            rw [hd]
            exact hasPrefixL_append_false "indirect".data p2 ' ' ('v' :: ds) hpre (by decide)
          · show hasPrefixL "indirect".data
              ((p2 ++ ' ' :: 'v' :: ds).dropWhile isRegexSpace) = false
            rw [hd]
            show hasPrefixL ('i' :: "ndirect".data) ('v' :: ds) = false
            simp [hasPrefixL]
        · show indirectAt ('/' :: b :: (p2 ++ ' ' :: 'v' :: ds)) = false
          exact indirectAt_not_slash2 _ _ _ hb
    · exact indirectAt_not_slash _ _ ha

/-- A space-free pattern matching across `p ++ ' ' :: rest` already
    matches within `p`. -/
theorem hasPrefixL_through_space (pat p rest : List Char) (hpat : ∀ c ∈ pat, c ≠ ' ')
    (h : hasPrefixL pat (p ++ ' ' :: rest) = true) : hasPrefixL pat p = true := by
  induction pat generalizing p with
  | nil => rfl
  | cons q qs ih =>
    cases p with
    | nil =>
      exfalso
      simp only [List.nil_append, hasPrefixL, Bool.and_eq_true, decide_eq_true_eq] at h
      exact hpat q (List.mem_cons_self _ _) h.1
    | cons b bs =>
      simp only [List.cons_append, hasPrefixL, Bool.and_eq_true] at h ⊢
      exact ⟨h.1, ih bs (fun c hc => hpat c (List.mem_cons_of_mem q hc)) h.2⟩

theorem hasPrefixL_append_cancel (a b l : List Char) :
    hasPrefixL (a ++ b) (a ++ l) = hasPrefixL b l := by
  induction a with
  | nil => rfl
  | cons q qs ih => simp [hasPrefixL, ih]

theorem containsSubL_single_false (a : Char) (l : List Char) (h : ∀ c ∈ l, ¬ a = c) :
    containsSubL [a] l = false := by
  induction l with
  | nil => rfl
  | cons c rest ih =>
    show (hasPrefixL [a] (c :: rest) || containsSubL [a] rest) = false
    have h1 : hasPrefixL [a] (c :: rest) = false := by
      simp [hasPrefixL, h c (List.mem_cons_self c rest)]
    rw [h1, ih (fun x hx => h x (List.mem_cons_of_mem c hx))]
    rfl

/-- `"require "` is never a raw prefix of `p ++ " " ++ rest` for a
    whitespace-free `p` other than `require` itself. -/
theorem hasPrefix_require_space_false (p rest : List Char)
    (hns : ∀ c ∈ p, isRegexSpace c = false) (hnr : p ≠ "require".data) :
    hasPrefixL "require ".data (p ++ ' ' :: rest) = false := by
  cases hb : hasPrefixL "require ".data (p ++ ' ' :: rest) with
  | false => rfl
  | true =>
    exfalso
    rw [show ("require ".data : List Char) = "require".data ++ [' '] from by decide] at hb
    have h7 := hasPrefixL_of_append_prefix "require".data [' '] _ hb
    have hp := hasPrefixL_through_space "require".data p rest (by decide) h7
    obtain ⟨t, rfl⟩ := (hasPrefixL_iff _ _).mp hp
    cases t with
    | nil => exact hnr (by simp)
    | cons c t' =>
      rw [List.append_assoc] at hb
      rw [hasPrefixL_append_cancel] at hb
      simp only [List.cons_append, hasPrefixL, Bool.and_eq_true, decide_eq_true_eq] at hb
      have hcp : isRegexSpace c = false := hns c (by simp)
      rw [← hb.1] at hcp
      exact absurd hcp (by decide)

/-- The module-declaration regex never matches `p ++ " " ++ rest` for a
    whitespace-free `p` other than `module` itself. -/
theorem matchesModuleRegex_space_false (p rest : List Char)
    (hns : ∀ c ∈ p, isRegexSpace c = false) (hnm : p ≠ "module".data) :
    matchesModuleRegex (p ++ ' ' :: rest) = false := by
  unfold matchesModuleRegex
  cases hpre : hasPrefixL "module".data (p ++ ' ' :: rest) with
  | false => rfl
  | true =>
    have hp := hasPrefixL_through_space "module".data p rest (by decide) hpre
    obtain ⟨t, rfl⟩ := (hasPrefixL_iff _ _).mp hp
    cases t with
    | nil => exact absurd (by simp) hnm
    | cons c t' =>
      have hdrop : (("module".data ++ (c :: t')) ++ ' ' :: rest).drop 6 =
          (c :: t') ++ ' ' :: rest := by
        rw [List.append_assoc]
        exact List.drop_left' (by decide)
      have hc : isRegexSpace c = false :=
        hns c (List.mem_append_right _ (List.mem_cons_self _ _))
      rw [Bool.true_and, hdrop]
      dsimp only
      rw [show ((c :: t') ++ ' ' :: rest : List Char) = c :: (t' ++ ' ' :: rest) from rfl]
      rw [List.takeWhile_cons_of_neg (by simp [hc])]
      rfl

/-- The dependency-line regex on a clean `path version` line: captures the
    path and the full `v`-version. -/
theorem requireRegexMatch_clean (p ds tail : List Char)
    (hne : p ≠ []) (hns : ∀ c ∈ p, isRegexSpace c = false)
    (hds_ne : ds ≠ []) (hds : ∀ c ∈ ds, isDigitDot c = true)
    (htail : tail = [] ∨ ∃ t', tail = ' ' :: t') :
    requireRegexMatch (p ++ ' ' :: 'v' :: (ds ++ tail)) = some (p, 'v' :: ds) := by
  have hdrop0 : (p ++ ' ' :: 'v' :: (ds ++ tail)).dropWhile isRegexSpace =
      p ++ ' ' :: 'v' :: (ds ++ tail) := by
    cases p with
    | nil => exact absurd rfl hne
    | cons c p' =>
      rw [List.cons_append]
      exact List.dropWhile_cons_of_neg (by simp [hns c (List.mem_cons_self c p')])
  have htake : (p ++ ' ' :: 'v' :: (ds ++ tail)).takeWhile (fun c => !isRegexSpace c) = p := by
    rw [List.takeWhile_append_of_pos (by intro a ha; simp [hns a ha]),
      List.takeWhile_cons_of_neg (by decide)]
    simp
  have hpE : p.isEmpty = false := by
    cases p
    · exact absurd rfl hne
    · rfl
  have hdsE : ds.isEmpty = false := by
    cases ds
    · exact absurd rfl hds_ne
    · rfl
  have hdig : (ds ++ tail).takeWhile isDigitDot = ds := by
    rw [List.takeWhile_append_of_pos hds]
    rcases htail with rfl | ⟨t', rfl⟩
    · simp
    · rw [List.takeWhile_cons_of_neg (by decide)]
      simp
  unfold requireRegexMatch
  dsimp only
  rw [hdrop0, htake, hpE]
  simp only [Bool.false_eq_true, if_false]
  rw [List.drop_left]
  rw [List.takeWhile_cons_of_pos (by decide), List.takeWhile_cons_of_neg (by decide)]
  simp only [List.isEmpty_cons, Bool.false_eq_true, if_false]
  rw [List.dropWhile_cons_of_pos (by decide), List.dropWhile_cons_of_neg (by decide)]
  show (if (ds ++ tail).takeWhile isDigitDot |>.isEmpty then none else _) = _
  rw [hdig, hdsE]
  simp only [Bool.false_eq_true, if_false]
  rw [List.drop_left]
  rcases htail with rfl | ⟨t', rfl⟩
  · rfl
  · rfl

theorem notUni_ne (c : Char) (h : isUniSpace c = false) :
    c ≠ '\n' ∧ c ≠ '\r' ∧ c ≠ ' ' := by
  refine ⟨?_, ?_, ?_⟩ <;> (intro he; subst he; revert h; decide)

theorem ne_of_space_mem (p rest target : List Char) (htar : ' ' ∉ target) :
    p ++ ' ' :: rest ≠ target := by
  intro h
  exact htar (h ▸ List.mem_append_right p (List.mem_cons_self _ _))

/-- `"require ("` is never a prefix of `p ++ " " ++ rest` for a
    whitespace-free `p` other than `require` itself. -/
theorem hasPrefix_requireParen_space_false (p rest : List Char)
    (hns : ∀ c ∈ p, isRegexSpace c = false) (hnr : p ≠ "require".data) :
    hasPrefixL "require (".data (p ++ ' ' :: rest) = false := by
  cases hb : hasPrefixL "require (".data (p ++ ' ' :: rest) with
  | false => rfl
  | true =>
    exfalso
    rw [show ("require (".data : List Char) = "require ".data ++ ['('] from by decide] at hb
    have h8 := hasPrefixL_of_append_prefix "require ".data ['('] _ hb
    rw [hasPrefix_require_space_false p rest hns hnr] at h8
    exact Bool.false_ne_true h8

/-! ### Line splitting over newline-free segments (C6) -/

/-- Scanning a newline-free segment only accumulates it. -/
theorem splitLinesAux_skip (s : List Char) (hs : ∀ c ∈ s, c ≠ '\n') :
    ∀ (rest acc : List Char),
      splitLinesAux (s ++ rest) acc = splitLinesAux rest (s.reverse ++ acc) := by
  induction s with
  | nil => intro rest acc; simp
  | cons c s' ih =>
    intro rest acc
    rw [List.cons_append]
    show (if c = '\n' then _ else splitLinesAux (s' ++ rest) (c :: acc)) = _
    rw [if_neg (hs c (List.mem_cons_self c s'))]
    rw [ih (fun x hx => hs x (List.mem_cons_of_mem c hx)) rest (c :: acc)]
    simp

theorem splitLinesAux_newline (rest acc : List Char) :
    splitLinesAux ('\n' :: rest) acc =
      dropCR acc.reverse :: (if rest.isEmpty then [] else splitLinesAux rest []) := by
  show (if '\n' = '\n' then _ else _) = _
  rw [if_pos rfl]

/-- One full line followed by a nonempty remainder. -/
theorem splitLines_cons (s rest : List Char) (hs : ∀ x ∈ s, x ≠ '\n')
    (hcr : s.getLast? ≠ some '\r') (hne : rest.isEmpty = false) :
    splitLinesAux (s ++ '\n' :: rest) [] = s :: splitLinesAux rest [] := by
  rw [splitLinesAux_skip s hs ('\n' :: rest) [], splitLinesAux_newline, hne]
  rw [List.append_nil, List.reverse_reverse]
  show dropCR s :: _ = _
  unfold dropCR
  rw [if_neg hcr]
  rfl

/-- An empty line followed by a nonempty remainder. -/
theorem splitLines_empty_cons (rest : List Char) (hne : rest.isEmpty = false) :
    splitLinesAux ('\n' :: rest) [] = [] :: splitLinesAux rest [] := by
  rw [splitLinesAux_newline, hne]
  rfl

/-- The final line of a newline-terminated text. -/
theorem splitLines_last (s : List Char) (hs : ∀ x ∈ s, x ≠ '\n')
    (hcr : s.getLast? ≠ some '\r') :
    splitLinesAux (s ++ ['\n']) [] = [s] := by
  rw [show (['\n'] : List Char) = '\n' :: [] from rfl,
    splitLinesAux_skip s hs ('\n' :: []) [], splitLinesAux_newline]
  rw [List.append_nil, List.reverse_reverse]
  show [dropCR s] = [s]
  unfold dropCR
  rw [if_neg hcr]

theorem getLast_ne_cr_of_concat (l pre : List Char) (d : Char) (hl : l = pre ++ [d])
    (hd : d ≠ '\r') : l.getLast? ≠ some '\r' := by
  subst hl
  rw [List.getLast?_concat]
  intro h
  injection h with h
  exact hd h

/-- No newline occurs in a clean dependency-line body. -/
theorem noNl_line (p ds extra : List Char) (hp : ∀ c ∈ p, isUniSpace c = false)
    (hds : ∀ c ∈ ds, isDigitDot c = true) (hex : ∀ c ∈ extra, c ≠ '\n') :
    ∀ x ∈ p ++ ' ' :: 'v' :: (ds ++ extra), x ≠ '\n' := by
  intro x hx
  simp only [List.mem_append, List.mem_cons] at hx
  rcases hx with hx | rfl | rfl | hx | hx
  · exact (notUni_ne x (hp x hx)).1
  · decide
  · decide
  · exact (notUni_ne x (digitDot_props x (hds x hx)).1).1
  · exact hex x hx

/-! ### Hypotheses and expected results for the go.mod scenario (C6) -/

/-- A reasonable Go module path: nonempty, free of whitespace and of the
    characters that would collide with the parser's structural tokens. -/
def goodPathL (p : List Char) : Prop :=
  p ≠ [] ∧ (∀ c ∈ p, isUniSpace c = false ∧ c ≠ '(') ∧
  p ≠ "module".data ∧ p ≠ "require".data ∧
  hasPrefixL "//".data p = false ∧ containsSubL "//indirect".data p = false

instance (p : List Char) : Decidable (goodPathL p) := by
  unfold goodPathL
  infer_instance

/-- The digits-and-dots body of a `v`-version. -/
def goodVersionL (ds : List Char) : Prop :=
  ds ≠ [] ∧ ∀ c ∈ ds, isDigitDot c = true

instance (ds : List Char) : Decidable (goodVersionL ds) := by
  unfold goodVersionL
  infer_instance

/-- The dependency the Go parser should produce for path `p`, version body
    `ds` and directness `dir`. -/
def goDep (p ds : List Char) (dir : Bool) : Dependency :=
  { Name := ⟨p⟩, Version := ⟨'v' :: ds⟩, «Type» := "go", Direct := dir,
    PURL := buildGoPURL ⟨p⟩ ⟨'v' :: ds⟩ }

theorem goodPathL.regexFree (p : List Char) (hp : goodPathL p) :
    ∀ c ∈ p, isRegexSpace c = false :=
  fun c hc => notRegexSpace_of_notUni c (hp.2.1 c hc).1

/-! ### The go.mod scan steps on the scenario lines (C6) -/

/-- Inside a require block, a clean `path version` line (prefixed by the
    customary tab) contributes a direct dependency. -/
theorem goModStep_block_direct (deps : List Dependency) (p ds : List Char)
    (hp : goodPathL p) (hds : goodVersionL ds) :
    goModStep (true, deps) ('\t' :: (p ++ ' ' :: 'v' :: ds)) =
      (true, deps ++ [goDep p ds true]) := by
  have hns : ∀ c ∈ p, isRegexSpace c = false := goodPathL.regexFree p hp
  obtain ⟨c0, p', hp_eq⟩ := List.exists_cons_of_ne_nil hp.1
  obtain ⟨ds', d, hds_eq⟩ : ∃ ds' d, ds = ds' ++ [d] := by
    rcases List.eq_nil_or_concat ds with h | ⟨L, b, h⟩
    · exact absurd h hds.1
    · exact ⟨L, b, by rw [h, List.concat_eq_append]⟩
  have hd_dd := digitDot_props d (hds.2 d (by rw [hds_eq]; simp))
  have htrim : trimL ('\t' :: (p ++ ' ' :: 'v' :: ds)) = p ++ ' ' :: 'v' :: ds := by
    rw [trimL_cons_space _ _ (by decide)]
    apply trimL_id
    · exact ⟨c0, p' ++ ' ' :: 'v' :: ds, by rw [hp_eq]; simp,
        (hp.2.1 c0 (by rw [hp_eq]; simp)).1⟩
    · exact ⟨p ++ ' ' :: 'v' :: ds', d, by rw [hds_eq]; simp, hd_dd.1⟩
  have hE : (p ++ ' ' :: 'v' :: ds).isEmpty = false := by
    rw [hp_eq]
    rfl
  have hslash : hasPrefixL "//".data (p ++ ' ' :: 'v' :: ds) = false :=
    hasPrefixL_append_false _ p ' ' _ hp.2.2.2.2.1 (by decide)
  have hmod : matchesModuleRegex (p ++ ' ' :: 'v' :: ds) = false :=
    matchesModuleRegex_space_false p _ hns hp.2.2.1
  have hreqp : hasPrefixL "require (".data (p ++ ' ' :: 'v' :: ds) = false :=
    hasPrefix_requireParen_space_false p _ hns hp.2.2.2.1
  have hreqeq : (decide (p ++ ' ' :: 'v' :: ds = "require(".data)) = false :=
    decide_eq_false (ne_of_space_mem p _ _ (by decide))
  have hrp : (decide (p ++ ' ' :: 'v' :: ds = ")".data)) = false :=
    decide_eq_false (ne_of_space_mem p _ _ (by decide))
  have hreqsp : hasPrefixL "require ".data (p ++ ' ' :: 'v' :: ds) = false :=
    hasPrefix_require_space_false p _ hns hp.2.2.2.1
  have hregex : requireRegexMatch (p ++ ' ' :: 'v' :: ds) = some (p, 'v' :: ds) := by
    have h := requireRegexMatch_clean p ds [] hp.1 hns hds.1 hds.2 (Or.inl rfl)
    rwa [List.append_nil] at h
  have hindir : hasIndirectComment ('\t' :: (p ++ ' ' :: 'v' :: ds)) = false := by
    show hasIndirectComment (['\t'] ++ (p ++ ' ' :: 'v' :: ds)) = false
    exact hasIndirect_append_left _ _ (by decide)
      (hasIndirect_main p ds hns hp.2.2.2.2.2 hds.2)
  unfold goModStep
  dsimp only
  rw [htrim]
  simp only [hE, hslash, hmod, hreqp, hreqeq, hrp, hreqsp, hregex, hindir,
    Bool.or_self, Bool.or_false, Bool.false_or, Bool.true_or, Bool.or_true,
    Bool.and_false, Bool.false_and, Bool.true_and, Bool.and_true,
    Bool.not_false, Bool.false_eq_true, if_false, if_true, goDep]

/-- Inside a require block, a clean `path version // indirect` line
    contributes an indirect dependency. -/
theorem goModStep_block_indirect (deps : List Dependency) (p ds : List Char)
    (hp : goodPathL p) (hds : goodVersionL ds) :
    goModStep (true, deps) ('\t' :: (p ++ ' ' :: 'v' :: (ds ++ " // indirect".data))) =
      (true, deps ++ [goDep p ds false]) := by
  have hns : ∀ c ∈ p, isRegexSpace c = false := goodPathL.regexFree p hp
  obtain ⟨c0, p', hp_eq⟩ := List.exists_cons_of_ne_nil hp.1
  have htrim : trimL ('\t' :: (p ++ ' ' :: 'v' :: (ds ++ " // indirect".data))) =
      p ++ ' ' :: 'v' :: (ds ++ " // indirect".data) := by
    rw [trimL_cons_space _ _ (by decide)]
    apply trimL_id
    · exact ⟨c0, p' ++ ' ' :: 'v' :: (ds ++ " // indirect".data), by rw [hp_eq]; simp,
        (hp.2.1 c0 (by rw [hp_eq]; simp)).1⟩
    · refine ⟨p ++ ' ' :: 'v' :: (ds ++ " // indirec".data), 't', ?_, by decide⟩
      rw [show (" // indirect".data : List Char) = " // indirec".data ++ ['t'] from by decide]
      simp
  have hE : (p ++ ' ' :: 'v' :: (ds ++ " // indirect".data)).isEmpty = false := by
    rw [hp_eq]
    rfl
  have hslash : hasPrefixL "//".data (p ++ ' ' :: 'v' :: (ds ++ " // indirect".data)) = false :=
    hasPrefixL_append_false _ p ' ' _ hp.2.2.2.2.1 (by decide)
  have hmod : matchesModuleRegex (p ++ ' ' :: 'v' :: (ds ++ " // indirect".data)) = false :=
    matchesModuleRegex_space_false p _ hns hp.2.2.1
  have hreqp : hasPrefixL "require (".data
      (p ++ ' ' :: 'v' :: (ds ++ " // indirect".data)) = false :=
    hasPrefix_requireParen_space_false p _ hns hp.2.2.2.1
  have hreqeq : (decide (p ++ ' ' :: 'v' :: (ds ++ " // indirect".data) =
      "require(".data)) = false :=
    decide_eq_false (ne_of_space_mem p _ _ (by decide))
  have hrp : (decide (p ++ ' ' :: 'v' :: (ds ++ " // indirect".data) = ")".data)) = false :=
    decide_eq_false (ne_of_space_mem p _ _ (by decide))
  have hreqsp : hasPrefixL "require ".data
      (p ++ ' ' :: 'v' :: (ds ++ " // indirect".data)) = false :=
    hasPrefix_require_space_false p _ hns hp.2.2.2.1
  have hregex : requireRegexMatch (p ++ ' ' :: 'v' :: (ds ++ " // indirect".data)) =
      some (p, 'v' :: ds) :=
    requireRegexMatch_clean p ds " // indirect".data hp.1 hns hds.1 hds.2
      (Or.inr ⟨"// indirect".data, by decide⟩)
  have hindir : hasIndirectComment
      ('\t' :: (p ++ ' ' :: 'v' :: (ds ++ " // indirect".data))) = true := by
    rw [show ('\t' :: (p ++ ' ' :: 'v' :: (ds ++ " // indirect".data)) : List Char) =
        ('\t' :: (p ++ ' ' :: 'v' :: (ds ++ [' ']))) ++ "// indirect".data from by
      rw [show (" // indirect".data : List Char) = [' '] ++ "// indirect".data from by decide]
      simp]
    exact hasIndirect_append_right _ _ (by decide)
  unfold goModStep
  dsimp only
  rw [htrim]
  simp only [hE, hslash, hmod, hreqp, hreqeq, hrp, hreqsp, hregex, hindir,
    Bool.or_self, Bool.or_false, Bool.false_or, Bool.true_or, Bool.or_true,
    Bool.and_false, Bool.false_and, Bool.true_and, Bool.and_true,
    Bool.not_true, Bool.false_eq_true, if_false, if_true, goDep]

/-- Outside a require block, a raw single-line `require path version`
    directive contributes a direct dependency. -/
theorem goModStep_require_line (deps : List Dependency) (p ds : List Char)
    (hp : goodPathL p) (hds : goodVersionL ds) :
    goModStep (false, deps) ("require ".data ++ (p ++ ' ' :: 'v' :: ds)) =
      (false, deps ++ [goDep p ds true]) := by
  have hns : ∀ c ∈ p, isRegexSpace c = false := goodPathL.regexFree p hp
  obtain ⟨c0, p', hp_eq⟩ := List.exists_cons_of_ne_nil hp.1
  obtain ⟨ds', d, hds_eq⟩ : ∃ ds' d, ds = ds' ++ [d] := by
    rcases List.eq_nil_or_concat ds with h | ⟨L, b, h⟩
    · exact absurd h hds.1
    · exact ⟨L, b, by rw [h, List.concat_eq_append]⟩
  have hd_dd := digitDot_props d (hds.2 d (by rw [hds_eq]; simp))
  have htrim : trimL ("require ".data ++ (p ++ ' ' :: 'v' :: ds)) =
      "require ".data ++ (p ++ ' ' :: 'v' :: ds) := by
    apply trimL_id
    · exact ⟨'r', "equire ".data ++ (p ++ ' ' :: 'v' :: ds), rfl, by decide⟩
    · exact ⟨"require ".data ++ (p ++ ' ' :: 'v' :: ds'), d, by rw [hds_eq]; simp, hd_dd.1⟩
  have hE : ("require ".data ++ (p ++ ' ' :: 'v' :: ds)).isEmpty = false := rfl
  have hslash : hasPrefixL "//".data ("require ".data ++ (p ++ ' ' :: 'v' :: ds)) = false := rfl
  have hmod : matchesModuleRegex ("require ".data ++ (p ++ ' ' :: 'v' :: ds)) = false := rfl
  have hc0paren : ('(' = c0) = False :=
    eq_false (fun h => (hp.2.1 c0 (by rw [hp_eq]; simp)).2 h.symm)
  have hreqp : hasPrefixL "require (".data
      ("require ".data ++ (p ++ ' ' :: 'v' :: ds)) = false := by
    rw [show ("require (".data : List Char) = "require ".data ++ ['('] from by decide,
      hasPrefixL_append_cancel, hp_eq, List.cons_append]
    simp [hasPrefixL, hc0paren]
  have hreqeq : (decide ("require ".data ++ (p ++ ' ' :: 'v' :: ds) =
      "require(".data)) = false :=
    decide_eq_false (ne_of_space_mem "require".data (p ++ ' ' :: 'v' :: ds) _ (by decide))
  have hrp : (decide ("require ".data ++ (p ++ ' ' :: 'v' :: ds) = ")".data)) = false :=
    decide_eq_false (ne_of_space_mem "require".data (p ++ ' ' :: 'v' :: ds) _ (by decide))
  have hreqsp : hasPrefixL "require ".data
      ("require ".data ++ (p ++ ' ' :: 'v' :: ds)) = true :=
    hasPrefixL_append_self _ _
  have hparen : containsSubL "(".data ("require ".data ++ (p ++ ' ' :: 'v' :: ds)) = false := by
    apply containsSubL_single_false
    intro c hc
    rcases List.mem_append.mp hc with h | h
    · revert h
      have : ∀ c ∈ ("require ".data : List Char), ¬ '(' = c := by decide
      exact this c
    · rcases List.mem_append.mp h with h | h
      · exact fun he => (hp.2.1 c h).2 he.symm
      · rcases List.mem_cons.mp h with rfl | h
        · decide
        · rcases List.mem_cons.mp h with rfl | h
          · decide
          · exact fun he => (digitDot_props c (hds.2 c h)).2.2.1 he.symm
  have hdrop8 : ("require ".data ++ (p ++ ' ' :: 'v' :: ds)).drop ("require ".length) =
      p ++ ' ' :: 'v' :: ds := by
    rw [show ("require " : String).length = 8 from rfl]
    exact List.drop_left' (by decide)
  have hregex : requireRegexMatch (p ++ ' ' :: 'v' :: ds) = some (p, 'v' :: ds) := by
    have h := requireRegexMatch_clean p ds [] hp.1 hns hds.1 hds.2 (Or.inl rfl)
    rwa [List.append_nil] at h
  have hindir : hasIndirectComment ("require ".data ++ (p ++ ' ' :: 'v' :: ds)) = false :=
    hasIndirect_append_left _ _ (by decide)
      (hasIndirect_main p ds hns hp.2.2.2.2.2 hds.2)
  unfold goModStep
  dsimp only
  rw [htrim]
  simp only [hE, hslash, hmod, hreqp, hreqeq, hrp, hreqsp, hparen, hdrop8, hregex, hindir,
    Bool.or_self, Bool.or_false, Bool.false_or, Bool.true_or, Bool.or_true,
    Bool.and_false, Bool.false_and, Bool.true_and, Bool.and_true,
    Bool.not_false, Bool.false_eq_true, if_false, if_true, goDep]

theorem goModStep_rparen_true (deps : List Dependency) :
    goModStep (true, deps) ")".data = (false, deps) := rfl

theorem goModStep_nil_false (deps : List Dependency) :
    goModStep (false, deps) [] = (false, deps) := rfl

theorem noNl_line0 (p ds : List Char) (hp : ∀ c ∈ p, isUniSpace c = false)
    (hds : ∀ c ∈ ds, isDigitDot c = true) :
    ∀ x ∈ p ++ ' ' :: 'v' :: ds, x ≠ '\n' := by
  have h := noNl_line p ds [] hp hds (fun c hc => absurd hc (List.not_mem_nil c))
  rw [List.append_nil] at h
  exact h

theorem noNl_tab_line0 (p ds : List Char) (hp : ∀ c ∈ p, isUniSpace c = false)
    (hds : ∀ c ∈ ds, isDigitDot c = true) :
    ∀ x ∈ '\t' :: (p ++ ' ' :: 'v' :: ds), x ≠ '\n' := by
  intro x hx
  rcases List.mem_cons.mp hx with rfl | hx
  · decide
  · exact noNl_line0 p ds hp hds x hx

theorem noNl_tab_indirect (p ds : List Char) (hp : ∀ c ∈ p, isUniSpace c = false)
    (hds : ∀ c ∈ ds, isDigitDot c = true) :
    ∀ x ∈ '\t' :: (p ++ ' ' :: 'v' :: (ds ++ " // indirect".data)), x ≠ '\n' := by
  intro x hx
  rcases List.mem_cons.mp hx with rfl | hx
  · decide
  · exact noNl_line p ds " // indirect".data hp hds (by decide) x hx

theorem noNl_req_line (p ds : List Char) (hp : ∀ c ∈ p, isUniSpace c = false)
    (hds : ∀ c ∈ ds, isDigitDot c = true) :
    ∀ x ∈ "require ".data ++ (p ++ ' ' :: 'v' :: ds), x ≠ '\n' := by
  intro x hx
  rcases List.mem_append.mp hx with h | h
  · revert h
    have hreq : ∀ x ∈ ("require ".data : List Char), x ≠ '\n' := by decide
    exact hreq x
  · exact noNl_line0 p ds hp hds x h

theorem getLast_tab_ne_cr (p ds : List Char) (hds : goodVersionL ds) :
    ('\t' :: (p ++ ' ' :: 'v' :: ds)).getLast? ≠ some '\r' := by
  obtain ⟨ds', d, hds_eq⟩ : ∃ ds' d, ds = ds' ++ [d] := by
    rcases List.eq_nil_or_concat ds with h | ⟨L, b, h⟩
    · exact absurd h hds.1
    · exact ⟨L, b, by rw [h, List.concat_eq_append]⟩
  exact getLast_ne_cr_of_concat _ ('\t' :: (p ++ ' ' :: 'v' :: ds')) d
    (by rw [hds_eq]; simp)
    (digitDot_props d (hds.2 d (by rw [hds_eq]; simp))).2.2.2.2

theorem getLast_indirect_ne_cr (p ds : List Char) :
    ('\t' :: (p ++ ' ' :: 'v' :: (ds ++ " // indirect".data))).getLast? ≠ some '\r' := by
  refine getLast_ne_cr_of_concat _
    ('\t' :: (p ++ ' ' :: 'v' :: (ds ++ " // indirec".data))) 't' ?_ (by decide)
  rw [show (" // indirect".data : List Char) = " // indirec".data ++ ['t'] from by decide]
  simp

theorem getLast_req_ne_cr (p ds : List Char) (hds : goodVersionL ds) :
    ("require ".data ++ (p ++ ' ' :: 'v' :: ds)).getLast? ≠ some '\r' := by
  obtain ⟨ds', d, hds_eq⟩ : ∃ ds' d, ds = ds' ++ [d] := by
    rcases List.eq_nil_or_concat ds with h | ⟨L, b, h⟩
    · exact absurd h hds.1
    · exact ⟨L, b, by rw [h, List.concat_eq_append]⟩
  exact getLast_ne_cr_of_concat _ ("require ".data ++ (p ++ ' ' :: 'v' :: ds')) d
    (by rw [hds_eq]; simp)
    (digitDot_props d (hds.2 d (by rw [hds_eq]; simp))).2.2.2.2

/-- C6: for a go.mod manifest with one two-entry require block whose second
    entry carries a trailing `// indirect` comment, followed by one
    single-line `require path version` directive, `GoModParser.Parse`
    returns exactly three dependencies: the `// indirect` entry has
    `Direct = false`, the other two have `Direct = true`, and every
    dependency's PURL is `pkg:golang/` followed by the module path with
    each `/` replaced by `%2F`, then `@` and the version. -/
theorem C6_go_mod_parsing (p1 p2 p3 ds1 ds2 ds3 : List Char)
    (h1 : goodPathL p1) (h2 : goodPathL p2) (h3 : goodPathL p3)
    (g1 : goodVersionL ds1) (g2 : goodVersionL ds2) (g3 : goodVersionL ds3) :
    goModParse ⟨"module example.com/app".data ++ '\n' ::
      '\n' ::
      ("go 1.21".data ++ '\n' ::
      '\n' ::
      ("require (".data ++ '\n' ::
      (('\t' :: (p1 ++ ' ' :: 'v' :: ds1)) ++ '\n' ::
      (('\t' :: (p2 ++ ' ' :: 'v' :: (ds2 ++ " // indirect".data))) ++ '\n' ::
      (")".data ++ '\n' ::
      '\n' ::
      (("require ".data ++ (p3 ++ ' ' :: 'v' :: ds3)) ++ ['\n']))))))⟩ =
      .ok [goDep p1 ds1 true, goDep p2 ds2 false, goDep p3 ds3 true] ∧
    ∀ p ds dir, goDep p ds dir =
      { Name := ⟨p⟩, Version := ⟨'v' :: ds⟩, «Type» := "go", Direct := dir,
        PURL := "pkg:golang/" ++ (⟨replaceAllL "/".data "%2F".data p⟩ : String) ++
          "@" ++ ⟨'v' :: ds⟩ } := by
  constructor
  · have hsplit : splitLinesGo ("module example.com/app".data ++ '\n' ::
        '\n' ::
        ("go 1.21".data ++ '\n' ::
        '\n' ::
        ("require (".data ++ '\n' ::
        (('\t' :: (p1 ++ ' ' :: 'v' :: ds1)) ++ '\n' ::
        (('\t' :: (p2 ++ ' ' :: 'v' :: (ds2 ++ " // indirect".data))) ++ '\n' ::
        (")".data ++ '\n' ::
        '\n' ::
        (("require ".data ++ (p3 ++ ' ' :: 'v' :: ds3)) ++ ['\n']))))))) =
        ["module example.com/app".data, [], "go 1.21".data, [], "require (".data,
         '\t' :: (p1 ++ ' ' :: 'v' :: ds1),
         '\t' :: (p2 ++ ' ' :: 'v' :: (ds2 ++ " // indirect".data)),
         ")".data, [],
         "require ".data ++ (p3 ++ ' ' :: 'v' :: ds3)] := by
      show splitLinesAux _ [] = _
      rw [splitLines_cons "module example.com/app".data
        ('\n' ::
        ("go 1.21".data ++ '\n' ::
        '\n' ::
        ("require (".data ++ '\n' ::
        (('\t' :: (p1 ++ ' ' :: 'v' :: ds1)) ++ '\n' ::
        (('\t' :: (p2 ++ ' ' :: 'v' :: (ds2 ++ " // indirect".data))) ++ '\n' ::
        (")".data ++ '\n' ::
        '\n' ::
        (("require ".data ++ (p3 ++ ' ' :: 'v' :: ds3)) ++ ['\n'])))))))
        (by decide) (by decide) rfl]
      rw [splitLines_empty_cons
        ("go 1.21".data ++ '\n' ::
        '\n' ::
        ("require (".data ++ '\n' ::
        (('\t' :: (p1 ++ ' ' :: 'v' :: ds1)) ++ '\n' ::
        (('\t' :: (p2 ++ ' ' :: 'v' :: (ds2 ++ " // indirect".data))) ++ '\n' ::
        (")".data ++ '\n' ::
        '\n' ::
        (("require ".data ++ (p3 ++ ' ' :: 'v' :: ds3)) ++ ['\n']))))))
        rfl]
      rw [splitLines_cons "go 1.21".data
        ('\n' ::
        ("require (".data ++ '\n' ::
        (('\t' :: (p1 ++ ' ' :: 'v' :: ds1)) ++ '\n' ::
        (('\t' :: (p2 ++ ' ' :: 'v' :: (ds2 ++ " // indirect".data))) ++ '\n' ::
        (")".data ++ '\n' ::
        '\n' ::
        (("require ".data ++ (p3 ++ ' ' :: 'v' :: ds3)) ++ ['\n']))))))
        (by decide) (by decide) rfl]
      rw [splitLines_empty_cons
        ("require (".data ++ '\n' ::
        (('\t' :: (p1 ++ ' ' :: 'v' :: ds1)) ++ '\n' ::
        (('\t' :: (p2 ++ ' ' :: 'v' :: (ds2 ++ " // indirect".data))) ++ '\n' ::
        (")".data ++ '\n' ::
        '\n' ::
        (("require ".data ++ (p3 ++ ' ' :: 'v' :: ds3)) ++ ['\n'])))))
        rfl]
      rw [splitLines_cons "require (".data
        (('\t' :: (p1 ++ ' ' :: 'v' :: ds1)) ++ '\n' ::
        (('\t' :: (p2 ++ ' ' :: 'v' :: (ds2 ++ " // indirect".data))) ++ '\n' ::
        (")".data ++ '\n' ::
        '\n' ::
        (("require ".data ++ (p3 ++ ' ' :: 'v' :: ds3)) ++ ['\n']))))
        (by decide) (by decide) (by cases p1 <;> rfl)]
      rw [splitLines_cons ('\t' :: (p1 ++ ' ' :: 'v' :: ds1))
        (('\t' :: (p2 ++ ' ' :: 'v' :: (ds2 ++ " // indirect".data))) ++ '\n' ::
        (")".data ++ '\n' ::
        '\n' ::
        (("require ".data ++ (p3 ++ ' ' :: 'v' :: ds3)) ++ ['\n'])))
        (noNl_tab_line0 p1 ds1 (fun c hc => (h1.2.1 c hc).1) g1.2)
        (getLast_tab_ne_cr p1 ds1 g1) (by cases p2 <;> rfl)]
      rw [splitLines_cons ('\t' :: (p2 ++ ' ' :: 'v' :: (ds2 ++ " // indirect".data)))
        (")".data ++ '\n' ::
        '\n' ::
        (("require ".data ++ (p3 ++ ' ' :: 'v' :: ds3)) ++ ['\n']))
        (noNl_tab_indirect p2 ds2 (fun c hc => (h2.2.1 c hc).1) g2.2)
        (getLast_indirect_ne_cr p2 ds2) rfl]
      rw [splitLines_cons ")".data
        ('\n' ::
        (("require ".data ++ (p3 ++ ' ' :: 'v' :: ds3)) ++ ['\n']))
        (by decide) (by decide) rfl]
      rw [splitLines_empty_cons
        (("require ".data ++ (p3 ++ ' ' :: 'v' :: ds3)) ++ ['\n'])
        rfl]
      rw [splitLines_last ("require ".data ++ (p3 ++ ' ' :: 'v' :: ds3))
        (noNl_req_line p3 ds3 (fun c hc => (h3.2.1 c hc).1) g3.2)
        (getLast_req_ne_cr p3 ds3 g3)]
    show Except.ok ((splitLinesGo _).foldl goModStep (false, [])).2 = _
    rw [hsplit]
    show Except.ok (List.foldl goModStep (false, [])
      (["module example.com/app".data, [], "go 1.21".data, [], "require (".data] ++
       ['\t' :: (p1 ++ ' ' :: 'v' :: ds1),
        '\t' :: (p2 ++ ' ' :: 'v' :: (ds2 ++ " // indirect".data)),
        ")".data, [],
        "require ".data ++ (p3 ++ ' ' :: 'v' :: ds3)])).2 = _
    rw [List.foldl_append]
    rw [show List.foldl goModStep ((false, []) : Bool × List Dependency)
      ["module example.com/app".data, [], "go 1.21".data, [], "require (".data] =
      (true, []) from by decide]
    rw [List.foldl_cons, goModStep_block_direct [] p1 ds1 h1 g1]
    rw [List.foldl_cons, goModStep_block_indirect _ p2 ds2 h2 g2]
    rw [List.foldl_cons, goModStep_rparen_true]
    rw [List.foldl_cons, goModStep_nil_false]
    rw [List.foldl_cons, goModStep_require_line _ p3 ds3 h3 g3]
    rw [List.foldl_nil]
    simp
  · intro p ds dir
    rfl

/-- Witness for C6 at a concrete manifest (paths with slashes, so the PURL
    percent-encoding is exercised). -/
theorem C6_go_mod_parsing_witness :
    goodPathL "github.com/gin-gonic/gin".data ∧ goodVersionL "1.9.1".data ∧
    (goModParse ⟨"module example.com/app".data ++ '\n' ::
      '\n' ::
      ("go 1.21".data ++ '\n' ::
      '\n' ::
      ("require (".data ++ '\n' ::
      (('\t' :: ("github.com/gin-gonic/gin".data ++ ' ' :: 'v' :: "1.9.1".data)) ++ '\n' ::
      (('\t' :: ("golang.org/x/text".data ++ ' ' :: 'v' ::
        ("0.14.0".data ++ " // indirect".data))) ++ '\n' ::
      (")".data ++ '\n' ::
      '\n' ::
      (("require ".data ++ ("github.com/stretchr/testify".data ++ ' ' :: 'v' ::
        "1.8.4".data)) ++ ['\n']))))))⟩ =
      .ok [goDep "github.com/gin-gonic/gin".data "1.9.1".data true,
           goDep "golang.org/x/text".data "0.14.0".data false,
           goDep "github.com/stretchr/testify".data "1.8.4".data true]) :=
  ⟨by decide, by decide,
    (C6_go_mod_parsing "github.com/gin-gonic/gin".data "golang.org/x/text".data
      "github.com/stretchr/testify".data "1.9.1".data "0.14.0".data "1.8.4".data
      (by decide) (by decide) (by decide) (by decide) (by decide) (by decide)).1⟩

/-! ### Determinism machinery (C5) -/

/-- The result of `Generate` with random fields (serial number / document
    namespace, timestamp / creation date) blanked out. -/
def scrubContent : SBOMContent → SBOMContent
  | .cdx bom => .cdx { bom with
      SerialNumber := "",
      Metadata := { bom.Metadata with Timestamp := "" } }
  | .spdx doc => .spdx { doc with
      DocumentNamespace := "",
      CreationInfo := { doc.CreationInfo with Created := "" } }

/-- `Generate` for the CycloneDX JSON format, computed. -/
theorem Generate_cdxJson (g : Generator) (input : GeneratorInput) (t : DateTime)
    (u : List Nat) (hf : input.Format = FormatCycloneDXJSON) :
    g.Generate input t u = .ok
      { Format := input.Format,
        Content := .cdx (buildCycloneDXBom input (collectDeps input.Files) g t u),
        Dependencies := collectDeps input.Files,
        Stats := calculateStats (collectDeps input.Files),
        GeneratedAt := t, ToolName := g.ToolName, ToolVersion := g.ToolVersion } := by
  unfold Generator.Generate
  dsimp only
  rw [hf, if_pos rfl]
  rfl

/-- `Generate` for the CycloneDX XML format, computed. -/
theorem Generate_cdxXml (g : Generator) (input : GeneratorInput) (t : DateTime)
    (u : List Nat) (hf : input.Format = FormatCycloneDXXML) :
    g.Generate input t u = .ok
      { Format := input.Format,
        Content := .cdx { buildCycloneDXBom input (collectDeps input.Files) g t u with
          XMLNS := "http://cyclonedx.org/schema/bom/1.4", BomFormat := "" },
        Dependencies := collectDeps input.Files,
        Stats := calculateStats (collectDeps input.Files),
        GeneratedAt := t, ToolName := g.ToolName, ToolVersion := g.ToolVersion } := by
  unfold Generator.Generate
  dsimp only
  rw [hf, if_neg (by decide), if_pos rfl]
  rfl

/-- `Generate` for the SPDX JSON format, computed. -/
theorem Generate_spdxJson (g : Generator) (input : GeneratorInput) (t : DateTime)
    (u : List Nat) (hf : input.Format = FormatSPDXJSON) :
    g.Generate input t u = .ok
      { Format := input.Format,
        Content := .spdx (buildSPDXDocument input (collectDeps input.Files) g t u),
        Dependencies := collectDeps input.Files,
        Stats := calculateStats (collectDeps input.Files),
        GeneratedAt := t, ToolName := g.ToolName, ToolVersion := g.ToolVersion } := by
  unfold Generator.Generate
  dsimp only
  rw [hf, if_neg (by decide), if_neg (by decide), if_pos rfl]
  rfl

/-- `Generate` on an unrecognized format, computed. -/
theorem Generate_unknown_format (g : Generator) (input : GeneratorInput) (t : DateTime)
    (u : List Nat) (h1 : ¬ input.Format = FormatCycloneDXJSON)
    (h2 : ¬ input.Format = FormatCycloneDXXML) (h3 : ¬ input.Format = FormatSPDXJSON) :
    g.Generate input t u = .error ("unsupported format: " ++ input.Format) := by
  unfold Generator.Generate
  simp only [if_neg h1, if_neg h2, if_neg h3]

/-- The dependencies one file contributes to the aggregation. -/
def fileDeps (fc : String × String) : List Dependency :=
  match GetParserForFile fc.1 with
  | none => []
  | some p =>
    match parserParse p fc.2 with
    | .error _ => []
    | .ok ds => ds

theorem collectDeps_foldl_acc (files : List (String × String)) (acc : List Dependency) :
    files.foldl
      (fun allDeps fc =>
        match GetParserForFile fc.1 with
        | none => allDeps
        | some parser =>
          match parserParse parser fc.2 with
          | .error _ => allDeps
          | .ok deps => allDeps ++ deps)
      acc = acc ++ (files.map fileDeps).flatten := by
  induction files generalizing acc with
  | nil => simp
  | cons fc fs ih =>
    rw [List.foldl_cons, List.map_cons, List.flatten_cons]
    have hstep : (match GetParserForFile fc.1 with
        | none => acc
        | some parser =>
          match parserParse parser fc.2 with
          | .error _ => acc
          | .ok deps => acc ++ deps) = acc ++ fileDeps fc := by
      unfold fileDeps
      cases hp : GetParserForFile fc.1 with
      | none => simp
      | some p =>
        cases he : parserParse p fc.2 with
        | error e => simp [he]
        | ok ds => simp [he]
    rw [hstep, ih, List.append_assoc]

theorem collectDeps_eq_flatten (files : List (String × String)) :
    collectDeps files = (files.map fileDeps).flatten := by
  unfold collectDeps
  rw [collectDeps_foldl_acc]
  simp

theorem perm_flatten {α : Type} {l₁ l₂ : List (List α)} (h : l₁.Perm l₂) :
    l₁.flatten.Perm l₂.flatten := by
  induction h with
  | nil => exact .rfl
  | cons x _ ih =>
    rw [List.flatten_cons, List.flatten_cons]
    exact ih.append_left x
  | swap x y l =>
    rw [List.flatten_cons, List.flatten_cons, List.flatten_cons, List.flatten_cons,
      ← List.append_assoc, ← List.append_assoc]
    exact (List.perm_append_comm).append_right _
  | trans _ _ ih1 ih2 => exact ih1.trans ih2

theorem collectDeps_perm {files files' : List (String × String)}
    (h : files.Perm files') : (collectDeps files).Perm (collectDeps files') := by
  rw [collectDeps_eq_flatten, collectDeps_eq_flatten]
  exact perm_flatten (h.map fileDeps)

/-- The per-dependency counter update of `calculateStats`. -/
def statsStep (st : SBOMStats) (dep : Dependency) : SBOMStats :=
  let st := if dep.Direct then
    { st with DirectDependencies := st.DirectDependencies + 1 } else st
  if dep.License ≠ "" then { st with WithLicense := st.WithLicense + 1 }
  else { st with WithoutLicense := st.WithoutLicense + 1 }

/-- The per-dependency ecosystem-set update of `calculateStats`. -/
def ecoStep (eco : List String) (dep : Dependency) : List String :=
  if dep.«Type» ∈ eco then eco else dep.«Type» :: eco

theorem foldl_pair_split (deps : List Dependency) (st : SBOMStats) (eco : List String) :
    deps.foldl (fun acc dep => (statsStep acc.1 dep, ecoStep acc.2 dep)) (st, eco) =
      (deps.foldl statsStep st, deps.foldl ecoStep eco) := by
  induction deps generalizing st eco with
  | nil => rfl
  | cons d ds ih => rw [List.foldl_cons, List.foldl_cons, List.foldl_cons, ih]

theorem calculateStats_decomposed (deps : List Dependency) :
    calculateStats deps =
      { deps.foldl statsStep { TotalDependencies := deps.length } with
        Ecosystems := (deps.foldl ecoStep []).length } := by
  show ({ (deps.foldl (fun acc dep => (statsStep acc.1 dep, ecoStep acc.2 dep))
      ({ TotalDependencies := deps.length }, [])).1 with
      Ecosystems := (deps.foldl (fun acc dep => (statsStep acc.1 dep, ecoStep acc.2 dep))
        ({ TotalDependencies := deps.length }, ([] : List String))).2.length } : SBOMStats) = _
  rw [foldl_pair_split]

theorem foldl_statsStep (deps : List Dependency) (st : SBOMStats) :
    deps.foldl statsStep st =
      { st with
        DirectDependencies := st.DirectDependencies + deps.countP (fun d => d.Direct),
        WithLicense := st.WithLicense + deps.countP (fun d => decide (d.License ≠ "")),
        WithoutLicense := st.WithoutLicense + deps.countP (fun d => decide (d.License = "")) } := by
  induction deps generalizing st with
  | nil => simp
  | cons d ds ih =>
    rw [List.foldl_cons, ih, List.countP_cons, List.countP_cons, List.countP_cons]
    unfold statsStep
    by_cases hD : d.Direct = true <;> by_cases hL : d.License = "" <;>
      simp [hD, hL, SBOMStats.mk.injEq] <;> omega

theorem foldl_ecoStep_spec (deps : List Dependency) (eco : List String) :
    (deps.foldl ecoStep eco).toFinset =
      eco.toFinset ∪ (deps.map (fun d => d.«Type»)).toFinset ∧
    (eco.Nodup → (deps.foldl ecoStep eco).Nodup) := by
  induction deps generalizing eco with
  | nil => simp
  | cons d ds ih =>
    rw [List.foldl_cons, List.map_cons]
    by_cases h : d.«Type» ∈ eco
    · rw [show ecoStep eco d = eco from by unfold ecoStep; rw [if_pos h]]
      refine ⟨?_, (ih eco).2⟩
      rw [(ih eco).1, List.toFinset_cons]
      ext x
      simp only [Finset.mem_union, Finset.mem_insert, List.mem_toFinset]
      constructor
      · rintro (hx | hx)
        · exact Or.inl hx
        · exact Or.inr (Or.inr hx)
      · rintro (hx | rfl | hx)
        · exact Or.inl hx
        · exact Or.inl h
        · exact Or.inr hx
    · rw [show ecoStep eco d = d.«Type» :: eco from by unfold ecoStep; rw [if_neg h]]
      refine ⟨?_, ?_⟩
      · rw [(ih (d.«Type» :: eco)).1, List.toFinset_cons, List.toFinset_cons]
        ext x
        simp only [Finset.mem_union, Finset.mem_insert, List.mem_toFinset]
        tauto
      · intro hnd
        exact (ih (d.«Type» :: eco)).2 (List.nodup_cons.mpr ⟨h, hnd⟩)

theorem foldl_ecoStep_length (deps : List Dependency) :
    (deps.foldl ecoStep []).length = (deps.map (fun d => d.«Type»)).toFinset.card := by
  obtain ⟨hts, hnd⟩ := foldl_ecoStep_spec deps []
  rw [← List.toFinset_card_of_nodup (hnd List.nodup_nil), hts]
  simp

/-- `calculateStats` in closed form. -/
theorem calculateStats_eq (deps : List Dependency) :
    calculateStats deps =
      { TotalDependencies := deps.length,
        DirectDependencies := deps.countP (fun d => d.Direct),
        WithLicense := deps.countP (fun d => decide (d.License ≠ "")),
        WithoutLicense := deps.countP (fun d => decide (d.License = "")),
        Ecosystems := (deps.map (fun d => d.«Type»)).toFinset.card } := by
  rw [calculateStats_decomposed, foldl_statsStep, foldl_ecoStep_length]
  simp

/-- `calculateStats` is invariant under permutation of the dependency
    list. -/
theorem calculateStats_perm {l₁ l₂ : List Dependency} (h : l₁.Perm l₂) :
    calculateStats l₁ = calculateStats l₂ := by
  rw [calculateStats_eq, calculateStats_eq]
  simp only [SBOMStats.mk.injEq]
  exact ⟨h.length_eq, h.countP_eq _, h.countP_eq _, h.countP_eq _,
    by rw [List.toFinset_eq_of_perm _ _ (h.map _)]⟩

/-- A mapping holding one file with one go.mod at the root and one nested:
    the two iteration orders of the same mapping. -/
def c5Input1 : GeneratorInput :=
  { exInput with
    Format := "cyclonedx-json",
    Files := [("go.mod", "require example.com/a v1.0.0\n"),
              ("b/go.mod", "require example.com/b v2.0.0\n")] }

/-- The same mapping as `c5Input1`, iterated in the other order. -/
def c5Input2 : GeneratorInput :=
  { exInput with
    Format := "cyclonedx-json",
    Files := [("b/go.mod", "require example.com/b v2.0.0\n"),
              ("go.mod", "require example.com/a v1.0.0\n")] }

/-- Counterexample to C5 as stated: the two inputs are byte-identical as
    mappings (`Files` sequences are permutations of each other with
    distinct keys; every other field is equal), yet the two `Generate`
    calls return different `Dependencies` lists, because the aggregation
    order follows the map iteration order, which Go randomizes. -/
theorem C5_determinism_counterexample :
    c5Input1.Files.Perm c5Input2.Files ∧
    (c5Input1.Files.map Prod.fst).Nodup ∧
    c5Input1.OrgName = c5Input2.OrgName ∧
    c5Input1.RepoName = c5Input2.RepoName ∧
    c5Input1.Format = c5Input2.Format ∧
    c5Input1.CommitSHA = c5Input2.CommitSHA ∧
    (NewGenerator.Generate c5Input1 exTime exUuid).map GeneratedSBOM.Dependencies ≠
      (NewGenerator.Generate c5Input2 exTime exUuid).map GeneratedSBOM.Dependencies := by
  decide

/-- C5 amended: `Generate`'s output is determined by the iteration orders
    of the ranged Go maps together with the clock and the UUID source.
    (1) With every map iteration order fixed — the `Files` sequence, and
    the document order this embedding fixes for each package.json's
    `dependencies`/`devDependencies` maps — two calls differ only in the
    timestamp/creation date and serial number/document namespace.
    (2) Across two iteration orders of the `Files` mapping, the aggregated
    dependency lists are permutations of one another and the `Stats` are
    identical.  (3) Likewise across two iteration orders of a
    package.json's `dependencies` and `devDependencies` maps: the two
    `range` loops of `PackageJSONParser.Parse` yield permutation-equivalent
    dependency lists with identical `Stats`. -/
theorem C5_determinism_amended (g : Generator) (input : GeneratorInput)
    (t₁ t₂ : DateTime) (u₁ u₂ : List Nat) :
    (∀ r₁ r₂, g.Generate input t₁ u₁ = .ok r₁ → g.Generate input t₂ u₂ = .ok r₂ →
      r₁.Dependencies = r₂.Dependencies ∧ r₁.Stats = r₂.Stats ∧
      scrubContent r₁.Content = scrubContent r₂.Content) ∧
    (∀ files' : List (String × String), input.Files.Perm files' →
      (collectDeps input.Files).Perm (collectDeps files') ∧
      calculateStats (collectDeps input.Files) = calculateStats (collectDeps files')) ∧
    (∀ dep dev d v : List (String × String), d.Perm dep → v.Perm dev →
      (npmRangeDeps d v).Perm (npmRangeDeps dep dev) ∧
      calculateStats (npmRangeDeps d v) = calculateStats (npmRangeDeps dep dev)) := by
  refine ⟨?_, ?_, ?_⟩
  · intro r₁ r₂ h₁ h₂
    by_cases hf1 : input.Format = FormatCycloneDXJSON
    · rw [Generate_cdxJson g input t₁ u₁ hf1] at h₁
      rw [Generate_cdxJson g input t₂ u₂ hf1] at h₂
      injection h₁ with h₁
      injection h₂ with h₂
      rw [← h₁, ← h₂]
      exact ⟨rfl, rfl, rfl⟩
    · by_cases hf2 : input.Format = FormatCycloneDXXML
      · rw [Generate_cdxXml g input t₁ u₁ hf2] at h₁
        rw [Generate_cdxXml g input t₂ u₂ hf2] at h₂
        injection h₁ with h₁
        injection h₂ with h₂
        rw [← h₁, ← h₂]
        exact ⟨rfl, rfl, rfl⟩
      · by_cases hf3 : input.Format = FormatSPDXJSON
        · rw [Generate_spdxJson g input t₁ u₁ hf3] at h₁
          rw [Generate_spdxJson g input t₂ u₂ hf3] at h₂
          injection h₁ with h₁
          injection h₂ with h₂
          rw [← h₁, ← h₂]
          exact ⟨rfl, rfl, rfl⟩
        · rw [Generate_unknown_format g input t₁ u₁ hf1 hf2 hf3] at h₁
          exact Except.noConfusion h₁
  · intro files' hp
    exact ⟨collectDeps_perm hp, calculateStats_perm (collectDeps_perm hp)⟩
  · intro dep dev d v hd hv
    have hperm : (npmRangeDeps d v).Perm (npmRangeDeps dep dev) :=
      List.Perm.append (hd.map npmDependency) (hv.map npmDependency)
    exact ⟨hperm, calculateStats_perm hperm⟩

/-- Witness for the amended C5 at concrete inputs: time/UUID variation over
    a fixed two-file go.mod mapping, the two iteration orders of that
    mapping, and the two iteration orders of the `dependencies` map of a
    concrete package.json (whose document-order parse is evaluated). -/
theorem C5_determinism_amended_witness :
    (∃ r₁ r₂, NewGenerator.Generate c5Input1 exTime exUuid = .ok r₁ ∧
      NewGenerator.Generate c5Input1 ⟨2027, 1, 2, 3, 4, 5⟩
        [255, 254, 253, 252, 251, 250, 249, 248, 247, 246, 245, 244, 243, 242, 241, 240] =
        .ok r₂ ∧
      r₁.Dependencies = r₂.Dependencies ∧ r₁.Stats = r₂.Stats ∧
      scrubContent r₁.Content = scrubContent r₂.Content ∧
      (collectDeps c5Input1.Files).Perm (collectDeps c5Input2.Files)) ∧
    packageJSONParse "\x7b\"dependencies\":\x7b\"a\":\"1.0.0\",\"b\":\"2.0.0\"\x7d\x7d" =
      .ok (npmRangeDeps [("a", "1.0.0"), ("b", "2.0.0")] []) ∧
    (npmRangeDeps [("b", "2.0.0"), ("a", "1.0.0")] []).Perm
      (npmRangeDeps [("a", "1.0.0"), ("b", "2.0.0")] []) ∧
    calculateStats (npmRangeDeps [("b", "2.0.0"), ("a", "1.0.0")] []) =
      calculateStats (npmRangeDeps [("a", "1.0.0"), ("b", "2.0.0")] []) := by
  have hgen1 := Generate_cdxJson NewGenerator c5Input1 exTime exUuid (by decide)
  have hgen2 := Generate_cdxJson NewGenerator c5Input1 ⟨2027, 1, 2, 3, 4, 5⟩
    [255, 254, 253, 252, 251, 250, 249, 248, 247, 246, 245, 244, 243, 242, 241, 240]
    (by decide)
  have h := C5_determinism_amended NewGenerator c5Input1 exTime ⟨2027, 1, 2, 3, 4, 5⟩
    exUuid [255, 254, 253, 252, 251, 250, 249, 248, 247, 246, 245, 244, 243, 242, 241, 240]
  obtain ⟨hd, hs, hc⟩ := h.1 _ _ hgen1 hgen2
  have hperm := (h.2.1 c5Input2.Files (by decide)).1
  have hnpm := h.2.2 [("a", "1.0.0"), ("b", "2.0.0")] []
    [("b", "2.0.0"), ("a", "1.0.0")] [] (by decide) (by decide)
  exact ⟨⟨_, _, hgen1, hgen2, hd, hs, hc, hperm⟩, by decide, hnpm.1, hnpm.2⟩

/-- A mapping holding one file with no parser and one malformed
    package.json. -/
def c2InputBad : GeneratorInput :=
  { exInput with
    Format := "spdx-json",
    Files := [("notes.txt", "hello"), ("package.json", "\x7b oops")] }

/-- `c2InputBad` with the parserless file removed. -/
def c2InputOne : GeneratorInput :=
  { exInput with Format := "spdx-json", Files := [("package.json", "\x7b oops")] }

/-- `c2InputBad` with no files at all. -/
def c2InputNone : GeneratorInput :=
  { exInput with Format := "spdx-json", Files := [] }

/-- Witness for C2: a mapping with one unparsable file (no parser), one
    malformed package.json (parse error) and nothing else generates the
    empty SPDX document. -/
theorem C2_tolerated_failures_and_empty_witness :
    NewGenerator.Generate c2InputBad exTime exUuid =
      NewGenerator.Generate c2InputNone exTime exUuid ∧
    ∃ r, NewGenerator.Generate c2InputBad exTime exUuid = .ok r ∧ r.Dependencies = [] := by
  have base := C2_tolerated_failures_and_empty NewGenerator c2InputBad exTime exUuid
  have base2 := C2_tolerated_failures_and_empty NewGenerator c2InputOne exTime exUuid
  have h1 : NewGenerator.Generate c2InputBad exTime exUuid =
      NewGenerator.Generate c2InputOne exTime exUuid :=
    base.1 [] [("package.json", "\x7b oops")] "notes.txt" "hello" (Or.inl (by decide)) (by rfl)
  have h2 : NewGenerator.Generate c2InputOne exTime exUuid =
      NewGenerator.Generate c2InputNone exTime exUuid :=
    base2.1 [] [] "package.json" "\x7b oops"
      (Or.inr ⟨.PackageJSONParser, "invalid JSON", by decide, by decide⟩) (by rfl)
  refine ⟨h1.trans h2, ?_⟩
  obtain ⟨r, hr, hdeps, -, -⟩ := base.2 (by decide) (Or.inr (Or.inr rfl))
  exact ⟨r, hr, hdeps⟩

/-- Witness for C1 at a concrete unrecognized format. -/
theorem C1_format_selection_witness :
    ParseFormat "SPDX" = .error ("unknown SBOM format: " ++ "SPDX") ∧
    NewGenerator.Generate
      { OrgName := "o", RepoName := "r",
        Files := [("go.mod", "require example.com/a v1.0.0\n")], Format := "yaml",
        CommitSHA := "c" } ⟨2026, 1, 1, 0, 0, 0⟩ [] =
      .error ("unsupported format: " ++ "yaml") := by
  constructor
  · exact C1_format_selection.2.2.2.2.2.1 "SPDX" (by decide)
  · exact (C1_format_selection.2.2.2.2.2.2 NewGenerator _ ⟨2026, 1, 1, 0, 0, 0⟩ []
      (by decide)).1

end Blueprint
